import Mathlib

/-!
Verification of the session-control IPC core of the agent-stuff repository:
the wire protocol codec, the command dispatcher, the turn-end subscription
mechanism, the socket/alias directory manager, and the RPC client.

The operations are embedded from the source files:
src/.pi/extensions/control.ts (handleCommand, createServer, the turn_end
handler), src/.pi/extensions/lib/control-rpc.ts (writeResponse, writeEvent,
parseCommand, sendRpcCommand), src/.pi/extensions/lib/control-socket.ts
(isSafeSessionId, isSafeAlias, removeSocket, removeAliasesForSocket,
createAliasSymlink, resolveSessionIdFromAlias) and
src/.pi/extensions/lib/control-messages.ts (getLastAssistantMessage,
getMessagesSinceLastPrompt, getFirstEntryId).  The JSON.stringify and
JSON.parse builtins the codec delegates to are modelled by an executable
printer and parser over the JSON value type below.
-/

namespace AgentStuff

/-- JSON values, the payload type of the line-delimited wire protocol.
Numbers are modelled as integers, which covers the timestamps, turn indices
and flags the protocol carries. -/
inductive Json where
  | null : Json
  | bool : Bool → Json
  | num : Int → Json
  | str : String → Json
  | arr : List Json → Json
  | obj : List (String × Json) → Json
deriving Repr, Inhabited

/-- Look up a field of a JSON object; none for non-objects or absent keys.
This models JS property access on a parsed value: a parsed object never has
duplicate keys, and property access on an array with a string key is
undefined. -/
def Json.getField : Json → String → Option Json
  | Json.obj fields, key => (fields.find? (fun f => f.1 = key)).map (fun f => f.2)
  | _, _ => none

/-- Look up a string-valued field; none when absent or not a string. -/
def Json.getStr (j : Json) (key : String) : Option String :=
  match j.getField key with
  | some (Json.str s) => some s
  | _ => none

/-- True exactly for JSON objects. -/
def Json.isObj : Json → Bool
  | Json.obj _ => true
  | _ => false

/-- The JS check performed by parseCommand: parsed is truthy and its typeof
is object.  JSON.parse results of typeof object are objects and arrays;
null, booleans, numbers and strings fail the check (null and the falsy
primitives through the truthiness guard, the rest through typeof). -/
def Json.isJsObjectLike : Json → Bool
  | Json.obj _ => true
  | Json.arr _ => true
  | _ => false

/-- JS truthiness of a parsed JSON value: null, false, zero and the empty
string are falsy; arrays and objects are always truthy. -/
def jsTruthy : Json → Bool
  | Json.null => false
  | Json.bool b => b
  | Json.num n => decide (n ≠ 0)
  | Json.str s => decide (s.length ≠ 0)
  | Json.arr _ => true
  | Json.obj _ => true

mutual
/-- How one element of a JS array renders inside Array.prototype.join: null
renders as the empty string, nested arrays as their joined elements. -/
def jsArrElem : Json → String
  | Json.null => ""
  | Json.bool true => "true"
  | Json.bool false => "false"
  | Json.num n => toString n
  | Json.str s => s
  | Json.arr xs => jsArrElems xs
  | Json.obj _ => "[object Object]"

/-- The elements of a JS array joined with commas, as Array toString does. -/
def jsArrElems : List Json → String
  | [] => ""
  | [x] => jsArrElem x
  | x :: y :: rest => jsArrElem x ++ "," ++ jsArrElems (y :: rest)
end

/-- How a JSON value renders inside a JS template literal, used by the error
strings that interpolate a field value; an absent field renders as
undefined.  Arrays render as their elements joined with commas and objects
as the object placeholder, as JS toString does. -/
def jsTemplate : Option Json → String
  | none => "undefined"
  | some Json.null => "null"
  | some (Json.bool true) => "true"
  | some (Json.bool false) => "false"
  | some (Json.num n) => toString n
  | some (Json.str s) => s
  | some (Json.arr xs) => jsArrElems xs
  | some (Json.obj _) => "[object Object]"

/-! ### JSON.stringify model -/

/-- The escape sequence JSON.stringify emits for one character of a string:
quote and backslash are escaped, the common control characters get their
short escapes, the remaining control characters a \u00XX escape, and every
other character stands for itself. -/
def escapeChar (c : Char) : List Char :=
  if c = '"' then ['\\', '"']
  else if c = '\\' then ['\\', '\\']
  else if c = Char.ofNat 8 then ['\\', 'b']
  else if c = Char.ofNat 9 then ['\\', 't']
  else if c = Char.ofNat 10 then ['\\', 'n']
  else if c = Char.ofNat 12 then ['\\', 'f']
  else if c = Char.ofNat 13 then ['\\', 'r']
  else if c.toNat < 32 then
    ['\\', 'u', '0', '0', Nat.digitChar (c.toNat / 16), Nat.digitChar (c.toNat % 16)]
  else [c]

/-- Decimal digits of a natural number, most significant first. -/
def printNat (n : Nat) : List Char :=
  if n = 0 then ['0'] else (Nat.digits 10 n).reverse.map Nat.digitChar

/-- Decimal rendering of an integer as JSON.stringify prints it. -/
def printInt : Int → List Char
  | Int.ofNat n => printNat n
  | Int.negSucc n => '-' :: printNat (n + 1)

/-- A JSON string literal: quote, escaped characters, quote. -/
def printString (s : String) : List Char :=
  '"' :: (s.toList.flatMap escapeChar ++ ['"'])

mutual

/-- The JSON text JSON.stringify produces for a value: no whitespace,
decimal integers, escaped string literals. -/
def printJson : Json → List Char
  | Json.null => ['n', 'u', 'l', 'l']
  | Json.bool true => ['t', 'r', 'u', 'e']
  | Json.bool false => ['f', 'a', 'l', 's', 'e']
  | Json.num i => printInt i
  | Json.str s => printString s
  | Json.arr [] => ['[', ']']
  | Json.arr (x :: xs) => '[' :: (printJson x ++ printRestElems xs ++ [']'])
  | Json.obj [] => ['\x7b', '\x7d']
  | Json.obj (f :: fs) => '\x7b' :: (printField f ++ printRestFields fs ++ ['\x7d'])

/-- One key-value pair of a JSON object. -/
def printField : String × Json → List Char
  | (k, v) => printString k ++ ':' :: printJson v

/-- The remaining array elements, each preceded by a comma. -/
def printRestElems : List Json → List Char
  | [] => []
  | y :: ys => ',' :: (printJson y ++ printRestElems ys)

/-- The remaining object fields, each preceded by a comma. -/
def printRestFields : List (String × Json) → List Char
  | [] => []
  | f :: fs => ',' :: (printField f ++ printRestFields fs)

end

/-- JSON.stringify as a string-valued function. -/
def jsonToString (j : Json) : String :=
  String.mk (printJson j)

/-! ### JSON.parse model -/

/-- The value of a hexadecimal digit character. -/
def hexVal (c : Char) : Option Nat :=
  if '0' ≤ c ∧ c ≤ '9' then some (c.toNat - '0'.toNat)
  else if 'a' ≤ c ∧ c ≤ 'f' then some (c.toNat - 'a'.toNat + 10)
  else if 'A' ≤ c ∧ c ≤ 'F' then some (c.toNat - 'A'.toNat + 10)
  else none

/-- Parse the body of a JSON string literal after the opening quote,
accumulating decoded characters in reverse; returns the string and the
input after the closing quote. -/
def parseStringBody (acc : List Char) : List Char → Option (String × List Char)
  | [] => none
  | c :: rest =>
    if c = '"' then some (String.mk acc.reverse, rest)
    else if c = '\\' then
      match rest with
      | [] => none
      | e :: rest2 =>
        if e = '"' then parseStringBody ('"' :: acc) rest2
        else if e = '\\' then parseStringBody ('\\' :: acc) rest2
        else if e = '/' then parseStringBody ('/' :: acc) rest2
        else if e = 'b' then parseStringBody (Char.ofNat 8 :: acc) rest2
        else if e = 't' then parseStringBody (Char.ofNat 9 :: acc) rest2
        else if e = 'n' then parseStringBody (Char.ofNat 10 :: acc) rest2
        else if e = 'f' then parseStringBody (Char.ofNat 12 :: acc) rest2
        else if e = 'r' then parseStringBody (Char.ofNat 13 :: acc) rest2
        else if e = 'u' then
          match rest2 with
          | h1 :: h2 :: h3 :: h4 :: rest3 =>
            match hexVal h1, hexVal h2, hexVal h3, hexVal h4 with
            | some a, some b, some c2, some d =>
                parseStringBody (Char.ofNat (((a * 16 + b) * 16 + c2) * 16 + d) :: acc) rest3
            | _, _, _, _ => none
          | _ => none
        else none
    else parseStringBody (c :: acc) rest

/-- Consume a run of decimal digits, big-endian accumulation. -/
def parseDigits (acc : Nat) : List Char → Nat × List Char
  | [] => (acc, [])
  | c :: rest =>
    if c.isDigit then parseDigits (acc * 10 + (c.toNat - '0'.toNat)) rest
    else (acc, c :: rest)

/-- Parse a JSON integer: an optional minus sign followed by digits. -/
def parseNumber : List Char → Option (Int × List Char)
  | [] => none
  | c :: rest =>
    if c = '-' then
      match rest with
      | [] => none
      | d :: rest2 =>
        if d.isDigit then
          let p := parseDigits (d.toNat - '0'.toNat) rest2
          some (-(p.1 : Int), p.2)
        else none
    else if c.isDigit then
      let p := parseDigits (c.toNat - '0'.toNat) rest
      some ((p.1 : Int), p.2)
    else none

mutual

/-- Parse one JSON value.  The fuel argument only bounds the recursion depth
of the model; any fuel at least the nesting weight of the value suffices and
the top-level entry point supplies enough for its whole input. -/
def parseValue : Nat → List Char → Option (Json × List Char)
  | 0, _ => none
  | _ + 1, [] => none
  | fuel + 1, c :: rest =>
    if c = 'n' then
      match rest with
      | 'u' :: 'l' :: 'l' :: rest2 => some (Json.null, rest2)
      | _ => none
    else if c = 't' then
      match rest with
      | 'r' :: 'u' :: 'e' :: rest2 => some (Json.bool true, rest2)
      | _ => none
    else if c = 'f' then
      match rest with
      | 'a' :: 'l' :: 's' :: 'e' :: rest2 => some (Json.bool false, rest2)
      | _ => none
    else if c = '"' then
      match parseStringBody [] rest with
      | some (s, rest2) => some (Json.str s, rest2)
      | none => none
    else if c = '[' then
      match rest with
      | [] => none
      | d :: rest2 =>
        if d = ']' then some (Json.arr [], rest2)
        else
          match parseElems fuel (d :: rest2) with
          | some (xs, rest3) => some (Json.arr xs, rest3)
          | none => none
    else if c = '\x7b' then
      match rest with
      | [] => none
      | d :: rest2 =>
        if d = '\x7d' then some (Json.obj [], rest2)
        else
          match parseFields fuel (d :: rest2) with
          | some (fs, rest3) => some (Json.obj fs, rest3)
          | none => none
    else
      match parseNumber (c :: rest) with
      | some (i, rest2) => some (Json.num i, rest2)
      | none => none

/-- Parse the elements of a nonempty JSON array up to and including the
closing bracket. -/
def parseElems : Nat → List Char → Option (List Json × List Char)
  | 0, _ => none
  | fuel + 1, input =>
    match parseValue fuel input with
    | some (v, rest) =>
      match rest with
      | [] => none
      | d :: rest2 =>
        if d = ',' then
          match parseElems fuel rest2 with
          | some (xs, rest3) => some (v :: xs, rest3)
          | none => none
        else if d = ']' then some ([v], rest2)
        else none
    | none => none

/-- Parse the fields of a nonempty JSON object up to and including the
closing brace. -/
def parseFields : Nat → List Char → Option (List (String × Json) × List Char)
  | 0, _ => none
  | fuel + 1, input =>
    match input with
    | '"' :: rest =>
      match parseStringBody [] rest with
      | some (k, rest1) =>
        match rest1 with
        | ':' :: rest2 =>
          match parseValue fuel rest2 with
          | some (v, rest3) =>
            match rest3 with
            | [] => none
            | d :: rest4 =>
              if d = ',' then
                match parseFields fuel rest4 with
                | some (fs, rest5) => some ((k, v) :: fs, rest5)
                | none => none
              else if d = '\x7d' then some ([(k, v)], rest4)
              else none
          | none => none
        | _ => none
      | none => none
    | _ => none

end

/-- JSON.parse as a partial function into the JSON value model: the whole
input must be consumed.  The fuel passed is enough for any value whose text
fits in the input. -/
def parseJson (s : String) : Option Json :=
  match parseValue (2 * s.length + 2) s.toList with
  | some (v, []) => some v
  | _ => none

/-! ### Round trip of the stringify and parse models -/

/-- Is the input a position where a printed number has certainly ended:
empty input or a non-digit head. -/
def numBoundary : List Char → Bool
  | [] => true
  | c :: _ => !c.isDigit

theorem parseDigits_boundary (acc : Nat) (rest : List Char)
    (h : numBoundary rest = true) : parseDigits acc rest = (acc, rest) := by
  cases rest with
  | nil => rfl
  | cons c t =>
      simp only [numBoundary, Bool.not_eq_true'] at h
      simp [parseDigits, h]

theorem digitChar_isDigit (d : Nat) (h : d < 10) :
    (Nat.digitChar d).isDigit = true := by
  interval_cases d <;> decide

theorem digitChar_toNat (d : Nat) (h : d < 10) :
    (Nat.digitChar d).toNat - '0'.toNat = d := by
  interval_cases d <;> decide

theorem parseDigits_digits (ds : List Nat) (acc : Nat) (rest : List Char)
    (hds : ∀ d ∈ ds, d < 10) (hrest : numBoundary rest = true) :
    parseDigits acc (ds.map Nat.digitChar ++ rest) =
      (ds.foldl (fun a d => a * 10 + d) acc, rest) := by
  induction ds generalizing acc with
  | nil => simpa using parseDigits_boundary acc rest hrest
  | cons d ds ih =>
      have hd : d < 10 := hds d (List.mem_cons_self d ds)
      have hds2 : ∀ e ∈ ds, e < 10 := fun e he => hds e (List.mem_cons_of_mem d he)
      simp only [List.map_cons, List.cons_append, parseDigits,
        digitChar_isDigit d hd, if_true, digitChar_toNat d hd]
      exact ih (acc * 10 + d) hds2

theorem foldl_digits_reverse (L : List Nat) (acc : Nat) :
    L.reverse.foldl (fun a d => a * 10 + d) acc =
      acc * 10 ^ L.length + Nat.ofDigits 10 L := by
  induction L generalizing acc with
  | nil => simp
  | cons d L ih =>
      rw [List.reverse_cons, List.foldl_append]
      simp only [List.foldl_cons, List.foldl_nil, ih]
      rw [Nat.ofDigits_cons]
      simp only [List.length_cons, pow_succ]
      ring

/-- A printed natural number starts with a digit and the digit loop reads it
back, leaving the boundary input untouched. -/
theorem parseNatCore (n : Nat) (rest : List Char) (h : numBoundary rest = true) :
    ∃ d t, printNat n ++ rest = d :: t ∧ d.isDigit = true ∧
      parseDigits (d.toNat - '0'.toNat) t = (n, rest) := by
  by_cases hn : n = 0
  · subst hn
    refine ⟨'0', rest, by simp [printNat], by decide, ?_⟩
    simpa using parseDigits_boundary 0 rest h
  · have hL : Nat.digits 10 n ≠ [] := Nat.digits_ne_nil_iff_ne_zero.mpr hn
    have hrev : (Nat.digits 10 n).reverse ≠ [] := by
      simpa using hL
    obtain ⟨d, ds, hds⟩ := List.exists_cons_of_ne_nil hrev
    have hlt : ∀ e ∈ (Nat.digits 10 n).reverse, e < 10 := by
      intro e he
      exact Nat.digits_lt_base (by norm_num) (List.mem_reverse.mp he)
    have hd10 : d < 10 := hlt d (hds ▸ List.mem_cons_self d ds)
    have hds10 : ∀ e ∈ ds, e < 10 := fun e he =>
      hlt e (hds ▸ List.mem_cons_of_mem d he)
    refine ⟨Nat.digitChar d, ds.map Nat.digitChar ++ rest, ?_, digitChar_isDigit d hd10, ?_⟩
    · simp [printNat, hn, hds]
    · rw [digitChar_toNat d hd10, parseDigits_digits ds d rest hds10 h]
      have hfold : (d :: ds).foldl (fun a e => a * 10 + e) 0 =
          ds.foldl (fun a e => a * 10 + e) d := by simp
      have : (Nat.digits 10 n).reverse.foldl (fun a e => a * 10 + e) 0 = n := by
        rw [foldl_digits_reverse]
        simp [Nat.ofDigits_digits]
      rw [hds, hfold] at this
      rw [this]

theorem isDigit_ne_minus (c : Char) (h : c.isDigit = true) : ¬ c = '-' := by
  intro he
  subst he
  simp at h

theorem parseNumber_printNat (n : Nat) (rest : List Char)
    (h : numBoundary rest = true) :
    parseNumber (printNat n ++ rest) = some ((n : Int), rest) := by
  obtain ⟨d, t, hdt, hdig, hpd⟩ := parseNatCore n rest h
  have hpd2 : parseDigits (d.toNat - 48) t = (n, rest) := hpd
  rw [hdt]
  simp [parseNumber, isDigit_ne_minus d hdig, hdig, hpd2]

theorem parseNumber_printInt (i : Int) (rest : List Char)
    (h : numBoundary rest = true) :
    parseNumber (printInt i ++ rest) = some (i, rest) := by
  cases i with
  | ofNat n => simpa [printInt] using parseNumber_printNat n rest h
  | negSucc n =>
      obtain ⟨d, t, hdt, hdig, hpd⟩ := parseNatCore (n + 1) rest h
      have hpd2 : parseDigits (d.toNat - 48) t = (n + 1, rest) := hpd
      simp only [printInt, List.cons_append, hdt]
      simp [parseNumber, hdig, hpd2, Int.negSucc_eq]

theorem hexVal_digitChar (n : Nat) (h : n < 16) :
    hexVal (Nat.digitChar n) = some n := by
  interval_cases n <;> decide

/-- The string-body parser undoes the character escaping of the printer and
stops at the closing quote. -/
theorem parseStringBody_escape (l : List Char) (acc : List Char) (rest : List Char) :
    parseStringBody acc (l.flatMap escapeChar ++ ('"' :: rest)) =
      some (String.mk (acc.reverse ++ l), rest) := by
  induction l generalizing acc with
  | nil => rw [parseStringBody.eq_def]; simp
  | cons c l ih =>
      rw [List.flatMap_cons]
      by_cases h1 : c = '"'
      · subst h1
        have he : escapeChar '"' = ['\\', '"'] := by decide
        rw [he]
        rw [parseStringBody.eq_def]; simp [ih]
      · by_cases h2 : c = '\\'
        · subst h2
          have he : escapeChar '\\' = ['\\', '\\'] := by decide
          rw [he]
          rw [parseStringBody.eq_def]; simp [ih]
        · by_cases h3 : c = Char.ofNat 8
          · subst h3
            have he : escapeChar (Char.ofNat 8) = ['\\', 'b'] := by decide
            rw [he]
            rw [parseStringBody.eq_def]; simp [ih]
          · by_cases h4 : c = Char.ofNat 9
            · subst h4
              have he : escapeChar (Char.ofNat 9) = ['\\', 't'] := by decide
              rw [he]
              rw [parseStringBody.eq_def]; simp [ih]
            · by_cases h5 : c = Char.ofNat 10
              · subst h5
                have he : escapeChar (Char.ofNat 10) = ['\\', 'n'] := by decide
                rw [he]
                rw [parseStringBody.eq_def]; simp [ih]
              · by_cases h6 : c = Char.ofNat 12
                · subst h6
                  have he : escapeChar (Char.ofNat 12) = ['\\', 'f'] := by decide
                  rw [he]
                  rw [parseStringBody.eq_def]; simp [ih]
                · by_cases h7 : c = Char.ofNat 13
                  · subst h7
                    have he : escapeChar (Char.ofNat 13) = ['\\', 'r'] := by decide
                    rw [he]
                    rw [parseStringBody.eq_def]; simp [ih]
                  · by_cases h8 : c.toNat < 32
                    · have he : escapeChar c =
                          ['\\', 'u', '0', '0', Nat.digitChar (c.toNat / 16),
                           Nat.digitChar (c.toNat % 16)] := by
                        simp [escapeChar, h1, h2, h3, h4, h5, h6, h7, h8]
                      rw [he]
                      have hdiv : c.toNat / 16 < 16 := by omega
                      have hmod : c.toNat % 16 < 16 := Nat.mod_lt _ (by norm_num)
                      have hval :
                          ((0 * 16 + 0) * 16 + c.toNat / 16) * 16 + c.toNat % 16 =
                            c.toNat := by omega
                      have h0 : hexVal '0' = some 0 := by decide
                      have hc : Char.ofNat (c.toNat / 16 * 16 + c.toNat % 16) = c := by
                        rw [show c.toNat / 16 * 16 + c.toNat % 16 = c.toNat from by omega,
                          Char.ofNat_toNat]
                      rw [parseStringBody.eq_def]
                      simp [h0, hexVal_digitChar _ hdiv, hexVal_digitChar _ hmod, hc, ih]
                    · have he : escapeChar c = [c] := by
                        simp [escapeChar, h1, h2, h3, h4, h5, h6, h7, h8]
                      rw [he]
                      rw [parseStringBody.eq_def]; simp [h1, h2, ih]

@[simp] theorem printJson_null : printJson Json.null = ['n', 'u', 'l', 'l'] := by
  rw [printJson.eq_def]

@[simp] theorem printJson_true : printJson (Json.bool true) = ['t', 'r', 'u', 'e'] := by
  rw [printJson.eq_def]

@[simp] theorem printJson_false : printJson (Json.bool false) = ['f', 'a', 'l', 's', 'e'] := by
  rw [printJson.eq_def]

@[simp] theorem printJson_num (i : Int) : printJson (Json.num i) = printInt i := by
  rw [printJson.eq_def]

@[simp] theorem printJson_str (s : String) : printJson (Json.str s) = printString s := by
  rw [printJson.eq_def]

@[simp] theorem printJson_arr_nil : printJson (Json.arr []) = ['[', ']'] := by
  rw [printJson.eq_def]

@[simp] theorem printJson_arr_cons (x : Json) (xs : List Json) :
    printJson (Json.arr (x :: xs)) =
      '[' :: (printJson x ++ printRestElems xs ++ [']']) := by
  rw [printJson.eq_def]

@[simp] theorem printJson_obj_nil : printJson (Json.obj []) = ['\x7b', '\x7d'] := by
  rw [printJson.eq_def]

@[simp] theorem printJson_obj_cons (f : String × Json) (fs : List (String × Json)) :
    printJson (Json.obj (f :: fs)) =
      '\x7b' :: (printField f ++ printRestFields fs ++ ['\x7d']) := by
  rw [printJson.eq_def]

@[simp] theorem printField_def (k : String) (v : Json) :
    printField (k, v) = printString k ++ ':' :: printJson v := by
  rw [printField.eq_def]

@[simp] theorem printRestElems_nil : printRestElems [] = [] := by
  rw [printRestElems.eq_def]

@[simp] theorem printRestElems_cons (y : Json) (ys : List Json) :
    printRestElems (y :: ys) = ',' :: (printJson y ++ printRestElems ys) := by
  rw [printRestElems.eq_def]

@[simp] theorem printRestFields_nil : printRestFields [] = [] := by
  rw [printRestFields.eq_def]

@[simp] theorem printRestFields_cons (f : String × Json) (fs : List (String × Json)) :
    printRestFields (f :: fs) = ',' :: (printField f ++ printRestFields fs) := by
  rw [printRestFields.eq_def]

mutual

/-- Recursion weight of a JSON value: an upper bound on the parser fuel its
text consumes. -/
def jsonFuel : Json → Nat
  | Json.null => 1
  | Json.bool _ => 1
  | Json.num _ => 1
  | Json.str _ => 1
  | Json.arr xs => 1 + elemsFuel xs
  | Json.obj fs => 1 + fieldsFuel fs

/-- Recursion weight of an array element list. -/
def elemsFuel : List Json → Nat
  | [] => 1
  | x :: xs => 1 + jsonFuel x + elemsFuel xs

/-- Recursion weight of an object field list. -/
def fieldsFuel : List (String × Json) → Nat
  | [] => 1
  | f :: fs => 1 + jsonFuel f.2 + fieldsFuel fs

end

@[simp] theorem jsonFuel_null : jsonFuel Json.null = 1 := by rw [jsonFuel.eq_def]

@[simp] theorem jsonFuel_bool (b : Bool) : jsonFuel (Json.bool b) = 1 := by
  rw [jsonFuel.eq_def]

@[simp] theorem jsonFuel_num (i : Int) : jsonFuel (Json.num i) = 1 := by
  rw [jsonFuel.eq_def]

@[simp] theorem jsonFuel_str (s : String) : jsonFuel (Json.str s) = 1 := by
  rw [jsonFuel.eq_def]

@[simp] theorem jsonFuel_arr (xs : List Json) :
    jsonFuel (Json.arr xs) = 1 + elemsFuel xs := by rw [jsonFuel.eq_def]

@[simp] theorem jsonFuel_obj (fs : List (String × Json)) :
    jsonFuel (Json.obj fs) = 1 + fieldsFuel fs := by rw [jsonFuel.eq_def]

@[simp] theorem elemsFuel_nil : elemsFuel [] = 1 := by rw [elemsFuel.eq_def]

@[simp] theorem elemsFuel_cons (x : Json) (xs : List Json) :
    elemsFuel (x :: xs) = 1 + jsonFuel x + elemsFuel xs := by rw [elemsFuel.eq_def]

@[simp] theorem fieldsFuel_nil : fieldsFuel [] = 1 := by rw [fieldsFuel.eq_def]

@[simp] theorem fieldsFuel_cons (f : String × Json) (fs : List (String × Json)) :
    fieldsFuel (f :: fs) = 1 + jsonFuel f.2 + fieldsFuel fs := by
  rw [fieldsFuel.eq_def]

theorem jsonFuel_pos (v : Json) : 1 ≤ jsonFuel v := by
  cases v <;> simp

theorem elemsFuel_pos (xs : List Json) : 1 ≤ elemsFuel xs := by
  cases xs with
  | nil => simp
  | cons x xs => simp only [elemsFuel_cons]; omega

theorem fieldsFuel_pos (fs : List (String × Json)) : 1 ≤ fieldsFuel fs := by
  cases fs with
  | nil => simp
  | cons f fs => simp only [fieldsFuel_cons]; omega

theorem printNat_ne_nil (n : Nat) : printNat n ≠ [] := by
  by_cases hn : n = 0
  · subst hn; simp [printNat]
  · have hL : Nat.digits 10 n ≠ [] := Nat.digits_ne_nil_iff_ne_zero.mpr hn
    simp [printNat, hn, hL]

/-- The first character of a printed JSON value, classified. -/
theorem printJson_head (v : Json) :
    ∃ c t, printJson v = c :: t ∧
      (c = 'n' ∨ c = 't' ∨ c = 'f' ∨ c = '"' ∨ c = '[' ∨ c = '\x7b' ∨
       c = '-' ∨ c.isDigit = true) := by
  cases v with
  | null => exact ⟨'n', ['u', 'l', 'l'], by simp, by decide⟩
  | bool b =>
      cases b with
      | false => exact ⟨'f', ['a', 'l', 's', 'e'], by simp, by decide⟩
      | true => exact ⟨'t', ['r', 'u', 'e'], by simp, by decide⟩
  | num i =>
      cases i with
      | ofNat n =>
          obtain ⟨d, t, hdt, hdig, _⟩ := parseNatCore n [] (by decide)
          rw [List.append_nil] at hdt
          exact ⟨d, t, by simp [printInt, hdt], Or.inr (Or.inr (Or.inr (Or.inr
            (Or.inr (Or.inr (Or.inr hdig))))))⟩
      | negSucc n => exact ⟨'-', printNat (n + 1), by simp [printInt], by decide⟩
  | str s =>
      exact ⟨'"', s.toList.flatMap escapeChar ++ ['"'], by simp [printString], by decide⟩
  | arr xs =>
      cases xs with
      | nil => exact ⟨'[', [']'], by simp, by decide⟩
      | cons x xs =>
          exact ⟨'[', printJson x ++ printRestElems xs ++ [']'], by simp, by decide⟩
  | obj fs =>
      cases fs with
      | nil => exact ⟨'\x7b', ['\x7d'], by simp, by decide⟩
      | cons f fs =>
          exact ⟨'\x7b', printField f ++ printRestFields fs ++ ['\x7d'], by simp, by decide⟩

/-- A printed JSON value never starts with a closing bracket, a closing
brace or a comma. -/
theorem printJson_head_ne (v : Json) :
    ∃ c t, printJson v = c :: t ∧ ¬ c = ']' ∧ ¬ c = '\x7d' := by
  obtain ⟨c, t, hct, hclass⟩ := printJson_head v
  refine ⟨c, t, hct, ?_, ?_⟩
  all_goals
    rcases hclass with h | h | h | h | h | h | h | h
  any_goals (subst h; decide)
  all_goals (intro he; subst he; exact absurd h (by decide))

theorem isDigit_ne_keywords (c : Char) (h : c.isDigit = true) :
    ¬ c = 'n' ∧ ¬ c = 't' ∧ ¬ c = 'f' ∧ ¬ c = '"' ∧ ¬ c = '[' ∧ ¬ c = '\x7b' := by
  refine ⟨?_, ?_, ?_, ?_, ?_, ?_⟩ <;>
    (intro he; subst he; exact absurd h (by decide))

@[simp] theorem string_mk_toList (s : String) : String.mk s.toList = s := rfl

theorem parseValue_quote (fuel : Nat) (rest : List Char) :
    parseValue (fuel + 1) ('"' :: rest) =
      match parseStringBody [] rest with
      | some (s, rest2) => some (Json.str s, rest2)
      | none => none := rfl

theorem parseValue_other (fuel : Nat) (c : Char) (rest : List Char)
    (h1 : ¬ c = 'n') (h2 : ¬ c = 't') (h3 : ¬ c = 'f') (h4 : ¬ c = '"')
    (h5 : ¬ c = '[') (h6 : ¬ c = '\x7b') :
    parseValue (fuel + 1) (c :: rest) =
      match parseNumber (c :: rest) with
      | some (i, rest2) => some (Json.num i, rest2)
      | none => none := by
  simp [parseValue, h1, h2, h3, h4, h5, h6]

theorem parseValue_lbracket (fuel : Nat) (d : Char) (rest : List Char)
    (h : ¬ d = ']') :
    parseValue (fuel + 1) ('[' :: d :: rest) =
      match parseElems fuel (d :: rest) with
      | some (xs, rest3) => some (Json.arr xs, rest3)
      | none => none := by
  simp [parseValue, h]

theorem parseValue_lbrace (fuel : Nat) (d : Char) (rest : List Char)
    (h : ¬ d = '\x7d') :
    parseValue (fuel + 1) ('\x7b' :: d :: rest) =
      match parseFields fuel (d :: rest) with
      | some (fs, rest3) => some (Json.obj fs, rest3)
      | none => none := by
  simp [parseValue, h]

/-- The parser reads back exactly what the printer produced, at every fuel
at least the recursion weight: one statement per mutual parser function. -/
theorem parse_print (fuel : Nat) :
    (∀ v rest, jsonFuel v ≤ fuel → numBoundary rest = true →
      parseValue fuel (printJson v ++ rest) = some (v, rest)) ∧
    (∀ x xs rest, elemsFuel (x :: xs) ≤ fuel →
      parseElems fuel (printJson x ++ (printRestElems xs ++ (']' :: rest))) =
        some (x :: xs, rest)) ∧
    (∀ f fs rest, fieldsFuel (f :: fs) ≤ fuel →
      parseFields fuel (printField f ++ (printRestFields fs ++ ('\x7d' :: rest))) =
        some (f :: fs, rest)) := by
  induction fuel with
  | zero =>
      refine ⟨?_, ?_, ?_⟩
      · intro v rest hf _
        exact absurd hf (by have := jsonFuel_pos v; omega)
      · intro x xs rest hf
        exact absurd hf (by have h1 := jsonFuel_pos x; have h2 := elemsFuel_pos xs
                            simp only [elemsFuel_cons]; omega)
      · intro f fs rest hf
        exact absurd hf (by have h1 := jsonFuel_pos f.2; have h2 := fieldsFuel_pos fs
                            simp only [fieldsFuel_cons]; omega)
  | succ fuel ih =>
      obtain ⟨ihA, ihB, ihC⟩ := ih
      refine ⟨?_, ?_, ?_⟩
      · intro v rest hf hb
        cases v with
        | null =>
            rw [printJson_null]
            rfl
        | bool b =>
            cases b with
            | true => rw [printJson_true]; rfl
            | false => rw [printJson_false]; rfl
        | num i =>
            cases i with
            | ofNat n =>
                obtain ⟨d, t, hdt, hdig, hpd⟩ := parseNatCore n rest hb
                have hne := isDigit_ne_keywords d hdig
                have hnum : parseNumber (d :: t) = some ((n : Int), rest) := by
                  rw [← hdt]
                  exact parseNumber_printNat n rest hb
                rw [printJson_num,
                  show printInt (Int.ofNat n) = printNat n from by simp [printInt],
                  hdt,
                  parseValue_other fuel d t hne.1 hne.2.1 hne.2.2.1 hne.2.2.2.1
                    hne.2.2.2.2.1 hne.2.2.2.2.2, hnum]
                rfl
            | negSucc n =>
                have hnum : parseNumber ('-' :: (printNat (n + 1) ++ rest)) =
                    some (Int.negSucc n, rest) := by
                  have h := parseNumber_printInt (Int.negSucc n) rest hb
                  simpa [printInt] using h
                rw [printJson_num,
                  show printInt (Int.negSucc n) ++ rest =
                    '-' :: (printNat (n + 1) ++ rest) from by simp [printInt],
                  parseValue_other fuel '-' (printNat (n + 1) ++ rest)
                    (by decide) (by decide) (by decide) (by decide) (by decide) (by decide),
                  hnum]
        | str s =>
            rw [printJson_str, printString,
              show ('"' :: (s.toList.flatMap escapeChar ++ ['"'])) ++ rest =
                '"' :: (s.toList.flatMap escapeChar ++ ('"' :: rest)) from by simp,
              parseValue_quote fuel]
            simp [parseStringBody_escape]
        | arr xs =>
            cases xs with
            | nil =>
                rw [printJson_arr_nil]
                rfl
            | cons x xs =>
                have hfe : elemsFuel (x :: xs) ≤ fuel := by
                  rw [jsonFuel_arr] at hf
                  omega
                have hb2 := ihB x xs rest hfe
                obtain ⟨c0, t0, hct, hne1, _⟩ := printJson_head_ne x
                rw [printJson_arr_cons,
                  show ('[' :: (printJson x ++ printRestElems xs ++ [']'])) ++ rest =
                    '[' :: (printJson x ++ (printRestElems xs ++ (']' :: rest))) from by
                      simp]
                rw [hct] at hb2 ⊢
                simp only [List.cons_append] at hb2 ⊢
                rw [parseValue_lbracket fuel c0 _ hne1, hb2]
        | obj fs =>
            cases fs with
            | nil =>
                rw [printJson_obj_nil]
                rfl
            | cons f fs =>
                have hfe : fieldsFuel (f :: fs) ≤ fuel := by
                  rw [jsonFuel_obj] at hf
                  omega
                have hc2 := ihC f fs rest hfe
                obtain ⟨k, v⟩ := f
                have hpf : printField (k, v) ++ (printRestFields fs ++ ('\x7d' :: rest)) =
                    '"' :: (k.toList.flatMap escapeChar ++ ('"' :: (':' :: (printJson v ++
                      (printRestFields fs ++ ('\x7d' :: rest)))))) := by
                  simp [printField_def, printString]
                rw [printJson_obj_cons,
                  show ('\x7b' :: (printField (k, v) ++ printRestFields fs ++ ['\x7d'])) ++ rest =
                    '\x7b' :: (printField (k, v) ++ (printRestFields fs ++ ('\x7d' :: rest)))
                    from by simp]
                rw [hpf] at hc2 ⊢
                rw [parseValue_lbrace fuel '"' _ (by decide), hc2]
      · intro x xs rest hfe
        have hjf : jsonFuel x ≤ fuel := by
          rw [elemsFuel_cons] at hfe
          have := elemsFuel_pos xs
          omega
        cases xs with
        | nil =>
            have hA := ihA x (']' :: rest) hjf (by simp [numBoundary])
            simp only [printRestElems_nil, List.nil_append]
            simp [parseElems, hA]
        | cons y ys =>
            have hA := ihA x
              (',' :: (printJson y ++ (printRestElems ys ++ (']' :: rest)))) hjf
              (by simp [numBoundary])
            have hfe2 : elemsFuel (y :: ys) ≤ fuel := by
              rw [elemsFuel_cons, elemsFuel_cons] at hfe
              rw [elemsFuel_cons]
              have := jsonFuel_pos x
              omega
            have hB2 := ihB y ys rest hfe2
            rw [show printRestElems (y :: ys) ++ (']' :: rest) =
                ',' :: (printJson y ++ (printRestElems ys ++ (']' :: rest))) from by simp]
            simp [parseElems, hA, hB2]
      · intro f fs rest hfe
        obtain ⟨k, v⟩ := f
        have hjf : jsonFuel v ≤ fuel := by
          rw [fieldsFuel_cons] at hfe
          have := fieldsFuel_pos fs
          simp at hfe
          omega
        have hs := parseStringBody_escape k.data []
          (':' :: (printJson v ++ (printRestFields fs ++ ('\x7d' :: rest))))
        simp only [List.reverse_nil, List.nil_append] at hs
        rw [show printField (k, v) ++ (printRestFields fs ++ ('\x7d' :: rest)) =
            '"' :: (k.data.flatMap escapeChar ++ ('"' :: (':' :: (printJson v ++
              (printRestFields fs ++ ('\x7d' :: rest)))))) from by
            simp [printField_def, printString]]
        cases fs with
        | nil =>
            have hA := ihA v ('\x7d' :: rest) hjf (by simp [numBoundary])
            simp only [printRestFields_nil, List.nil_append] at hs ⊢
            simp [parseFields, hs, hA]
        | cons g gs =>
            have hA := ihA v
              (',' :: (printField g ++ (printRestFields gs ++ ('\x7d' :: rest)))) hjf
              (by simp [numBoundary])
            have hfs2 : fieldsFuel (g :: gs) ≤ fuel := by
              rw [fieldsFuel_cons, fieldsFuel_cons] at hfe
              rw [fieldsFuel_cons]
              have := jsonFuel_pos v
              simp at hfe
              omega
            have hC2 := ihC g gs rest hfs2
            rw [show printRestFields (g :: gs) ++ ('\x7d' :: rest) =
                ',' :: (printField g ++ (printRestFields gs ++ ('\x7d' :: rest))) from by
                simp] at hs ⊢
            simp [parseFields, hs, hA, hC2]

/-- The recursion weight of a value is dominated by twice the length of its
printed text, so the fuel chosen by parseJson always suffices. -/
theorem fuel_le_print (N : Nat) :
    (∀ v, jsonFuel v ≤ N → jsonFuel v ≤ 2 * (printJson v).length) ∧
    (∀ xs, elemsFuel xs ≤ N →
      elemsFuel xs ≤ 2 * (printRestElems xs).length + 1) ∧
    (∀ fs, fieldsFuel fs ≤ N →
      fieldsFuel fs ≤ 2 * (printRestFields fs).length + 1) := by
  induction N with
  | zero =>
      refine ⟨?_, ?_, ?_⟩
      · intro v hv; exact absurd hv (by have := jsonFuel_pos v; omega)
      · intro xs hxs; exact absurd hxs (by have := elemsFuel_pos xs; omega)
      · intro fs hfs; exact absurd hfs (by have := fieldsFuel_pos fs; omega)
  | succ N ih =>
      obtain ⟨ihA, ihB, ihC⟩ := ih
      refine ⟨?_, ?_, ?_⟩
      · intro v hv
        cases v with
        | null => simp
        | bool b => cases b <;> simp
        | num i =>
            obtain ⟨c, t, hct, _⟩ := printJson_head (Json.num i)
            simp only [jsonFuel_num] at hv ⊢
            rw [hct]
            simp
            omega
        | str s => simp [printString]; omega
        | arr xs =>
            have hxs : elemsFuel xs ≤ N := by
              simp only [jsonFuel_arr] at hv; omega
            have hb := ihB xs hxs
            cases xs with
            | nil => simp
            | cons y ys =>
                simp only [jsonFuel_arr, printJson_arr_cons, List.length_cons,
                  List.length_append, printRestElems_cons] at hb ⊢
                omega
        | obj fs =>
            have hfs : fieldsFuel fs ≤ N := by
              simp only [jsonFuel_obj] at hv; omega
            have hb := ihC fs hfs
            cases fs with
            | nil => simp
            | cons f fs =>
                simp only [jsonFuel_obj, printJson_obj_cons, List.length_cons,
                  List.length_append, printRestFields_cons] at hb ⊢
                omega
      · intro xs hxs
        cases xs with
        | nil => simp
        | cons y ys =>
            have hy : jsonFuel y ≤ N := by
              simp only [elemsFuel_cons] at hxs
              have := elemsFuel_pos ys
              omega
            have hys : elemsFuel ys ≤ N := by
              simp only [elemsFuel_cons] at hxs
              have := jsonFuel_pos y
              omega
            have h1 := ihA y hy
            have h2 := ihB ys hys
            simp only [elemsFuel_cons, printRestElems_cons, List.length_cons,
              List.length_append]
            omega
      · intro fs hfs
        cases fs with
        | nil => simp
        | cons f fs =>
            have hv : jsonFuel f.2 ≤ N := by
              simp only [fieldsFuel_cons] at hfs
              have := fieldsFuel_pos fs
              omega
            have hfs2 : fieldsFuel fs ≤ N := by
              simp only [fieldsFuel_cons] at hfs
              have := jsonFuel_pos f.2
              omega
            have h1 := ihA f.2 hv
            have h2 := ihC fs hfs2
            obtain ⟨k, v⟩ := f
            simp only [fieldsFuel_cons, printRestFields_cons, printField_def,
              printString, List.length_cons, List.length_append] at h1 h2 ⊢
            omega

/-- Round trip: parsing the printed text of any JSON value recovers the
value exactly, with nothing left over.  This is the heart of the claim that
a written frame can be decoded from its serialized line. -/
theorem parseJson_jsonToString (v : Json) : parseJson (jsonToString v) = some v := by
  have hb := (fuel_le_print (jsonFuel v)).1 v le_rfl
  have hlen : (jsonToString v).length = (printJson v).length := rfl
  have hfuel : jsonFuel v ≤ 2 * (jsonToString v).length + 2 := by
    rw [hlen]; omega
  have hp := (parse_print (2 * (jsonToString v).length + 2)).1 v [] hfuel rfl
  rw [List.append_nil] at hp
  have htl : (jsonToString v).toList = printJson v := rfl
  rw [parseJson, htl, hp]

/-! ### Wire protocol frames (lib/control-rpc.ts) -/

/-- A Response frame: originating command type, success flag, optional data,
error and correlation id.  The type tag response is fixed by the writers. -/
structure RpcResponse where
  command : String
  success : Bool
  data : Option Json
  error : Option String
  id : Option String
deriving Repr

/-- An Event frame: event name, optional data and subscription id. -/
structure RpcEvent where
  event : String
  data : Option Json
  subscriptionId : Option String
deriving Repr

/-- Append an optional field to a JSON object field list, omitting it when
absent: JSON.stringify drops fields whose value is undefined. -/
def optField (key : String) : Option Json → List (String × Json)
  | some v => [(key, v)]
  | none => []

/-- Embedded from src (control.ts and lib/control-rpc.ts): the JSON object a
Response frame is written as, with the field order of the object literals
passed to writeResponse: type, command, success, data, error, id, the
optional fields dropped when undefined. -/
def responseToJson (r : RpcResponse) : Json :=
  Json.obj ([("type", Json.str "response"),
             ("command", Json.str r.command),
             ("success", Json.bool r.success)]
            ++ optField "data" r.data
            ++ optField "error" (r.error.map Json.str)
            ++ optField "id" (r.id.map Json.str))

/-- Embedded from src (control.ts turn_end handler): the JSON object an
Event frame is written as: type, event, data, subscriptionId. -/
def eventToJson (e : RpcEvent) : Json :=
  Json.obj ([("type", Json.str "event"),
             ("event", Json.str e.event)]
            ++ optField "data" e.data
            ++ optField "subscriptionId" (e.subscriptionId.map Json.str))

/-- Embedded from src (lib/control-rpc.ts writeResponse): the line written
on the socket is the JSON serialization of the frame followed by a newline. -/
def writeResponse (r : RpcResponse) : String :=
  jsonToString (responseToJson r) ++ "\n"

/-- Embedded from src (lib/control-rpc.ts writeEvent): the line written on
the socket is the JSON serialization of the frame followed by a newline. -/
def writeEvent (e : RpcEvent) : String :=
  jsonToString (eventToJson e) ++ "\n"

/-- Read a Response frame back out of a parsed JSON value: requires a type
tag of response, a string command and a boolean success flag. -/
def decodeResponse (j : Json) : Option RpcResponse :=
  match j.getStr "type" with
  | some "response" =>
      match j.getStr "command" with
      | some cmd =>
          match j.getField "success" with
          | some (Json.bool ok) =>
              some { command := cmd, success := ok,
                     data := j.getField "data",
                     error := j.getStr "error",
                     id := j.getStr "id" }
          | _ => none
      | none => none
  | _ => none

/-- Read an Event frame back out of a parsed JSON value: requires a type tag
of event and a string event name. -/
def decodeEvent (j : Json) : Option RpcEvent :=
  match j.getStr "type" with
  | some "event" =>
      match j.getStr "event" with
      | some name =>
          some { event := name,
                 data := j.getField "data",
                 subscriptionId := j.getStr "subscriptionId" }
      | none => none
  | _ => none

/-! ### Command decoding (lib/control-rpc.ts parseCommand) -/

/-- A decoded command: the parsed JSON object of the line together with its
type tag.  The known tags are send, get_message, get_summary, clear, abort
and subscribe; any other value with a string type tag also decodes and is
refused later by the dispatcher. -/
structure Command where
  type : String
  json : Json
deriving Repr

/-- Embedded from src (lib/control-rpc.ts parseCommand), over the outcome of
the JSON.parse call it wraps: a thrown parse error is reported as Failed to
parse command with the thrown message; a parsed value that is falsy or whose
JS typeof is not object fails as Invalid command: expected JSON object (an
array passes this check, since typeof of an array is object); a value
without a string type field fails as Missing command type; otherwise the
parsed value is returned typed by its type tag. -/
def parseCommand : Except String Json → Except String Command
  | Except.error msg => Except.error ("Failed to parse command: " ++ msg)
  | Except.ok parsed =>
      if !(jsTruthy parsed) || !(Json.isJsObjectLike parsed) then
        Except.error "Invalid command: expected JSON object"
      else
        match parsed.getStr "type" with
        | some t => Except.ok { type := t, json := parsed }
        | none => Except.error "Missing command type"

/-! ### Conversation entries (lib/control-messages.ts) -/

/-- One content part of a conversation message: a text part or some other
kind of part (tool call, image, ...), which the extractors ignore. -/
inductive ContentPart where
  | text (s : String) : ContentPart
  | other (kind : String) : ContentPart
deriving Repr, DecidableEq

/-- A conversation message: role, content parts and timestamp. -/
structure Msg where
  role : String
  content : List ContentPart
  timestamp : Int
deriving Repr, DecidableEq

/-- One conversation entry of the session branch: a message entry or some
other entry kind, which the extractors skip. -/
inductive Entry where
  | message (m : Msg) : Entry
  | other (kind : String) : Entry
deriving Repr, DecidableEq

/-- The normalized projection of a conversation turn used for last-message
and summary results: role, flattened text content and timestamp. -/
structure ExtractedMessage where
  role : String
  content : String
  timestamp : Int
deriving Repr, DecidableEq

/-- The text parts of a message content list, in order: the filter-and-map
over parts of type text performed by the extractors. -/
def textParts (content : List ContentPart) : List String :=
  content.filterMap (fun c =>
    match c with
    | ContentPart.text s => some s
    | ContentPart.other _ => none)

/-- Does an entry hold an assistant message with at least one text part?
This is the condition under which the backward scan of
getLastAssistantMessage stops. -/
def isAssistantTextEntry : Entry → Bool
  | Entry.message m => m.role = "assistant" && !(textParts m.content).isEmpty
  | Entry.other _ => false

/-- The projection applied to the entry the backward scan stops at. -/
def extractAssistant : Entry → ExtractedMessage
  | Entry.message m =>
      { role := "assistant",
        content := String.intercalate "\n" (textParts m.content),
        timestamp := m.timestamp }
  | Entry.other _ => { role := "assistant", content := "", timestamp := 0 }

/-- The backward scan of getLastAssistantMessage, written on the reversed
branch: the first entry (of the reversed list) holding an assistant message
with a nonempty list of text parts is projected and returned. -/
def lastAssistantRev : List Entry → Option ExtractedMessage
  | [] => none
  | e :: rest =>
      if isAssistantTextEntry e then some (extractAssistant e)
      else lastAssistantRev rest

/-- Embedded from src (lib/control-messages.ts getLastAssistantMessage):
iterate the session branch from the last entry towards the first; on each
message entry with role assistant whose filtered text parts are nonempty,
return role, the text parts joined with newlines, and the timestamp;
otherwise keep scanning; undefined (none) when no entry matches. -/
def getLastAssistantMessage (branch : List Entry) : Option ExtractedMessage :=
  lastAssistantRev branch.reverse

/-- An entry record as seen by getFirstEntryId: a stable id and the parent
id, null on the root entry. -/
structure EntryRec where
  id : String
  parentId : Option String
deriving Repr, DecidableEq

/-- Embedded from src (lib/control-messages.ts getFirstEntryId): undefined
on an empty entry list, else the id of the first entry whose parentId is
null, else the id of the first entry. -/
def getFirstEntryId (entries : List EntryRec) : Option String :=
  match entries with
  | [] => none
  | _ =>
    match entries.find? (fun e => e.parentId.isNone) with
    | some root => some root.id
    | none => entries.head?.map (fun e => e.id)

/-- Does an entry hold a user message? -/
def isUserMsgEntry : Entry → Bool
  | Entry.message m => m.role = "user"
  | Entry.other _ => false

/-- The suffix of the branch starting at the last user message entry, none
when there is no user message entry. -/
def suffixFromLastUser : List Entry → Option (List Entry)
  | [] => none
  | e :: rest =>
      match suffixFromLastUser rest with
      | some s => some s
      | none => if isUserMsgEntry e then some (e :: rest) else none

/-- Project a user or assistant message entry with a nonempty list of text
parts; none on every other entry. -/
def projectTurn : Entry → Option ExtractedMessage
  | Entry.message m =>
      if (m.role = "user" || m.role = "assistant") && !(textParts m.content).isEmpty then
        some { role := m.role,
               content := String.intercalate "\n" (textParts m.content),
               timestamp := m.timestamp }
      else none
  | Entry.other _ => none

/-- Embedded from src (lib/control-messages.ts getMessagesSinceLastPrompt):
locate the last user message entry scanning backward; if there is none
return the empty list; otherwise project every user or assistant message
entry with nonempty text parts from that index to the end of the branch. -/
def getMessagesSinceLastPrompt (branch : List Entry) : List ExtractedMessage :=
  match suffixFromLastUser branch with
  | none => []
  | some s => s.filterMap projectTurn

/-! ### The session collaborator and the dispatcher state (control.ts) -/

/-- Outcome of the completion call performed by the get_summary handler: a
content list on success, the aborted or error stop reasons, or a thrown
exception with its message. -/
inductive CompletionOutcome where
  | ok (parts : List ContentPart) : CompletionOutcome
  | aborted : CompletionOutcome
  | errored : CompletionOutcome
  | thrown (msg : String) : CompletionOutcome
deriving Repr, DecidableEq

/-- The session collaborator surface handleCommand consults: the idle flag,
the conversation branch and entry list, the current leaf entry id of the
session manager, whether the session manager object has a rewindTo method
and whether calling it throws (with the thrown message), and the
summarization collaborators: the selected small model id, credential
availability and the completion outcome. -/
structure Session where
  isIdle : Bool
  branch : List Entry
  entries : List EntryRec
  leafId : Option String
  rewindSupported : Bool
  rewindThrows : Option String
  summaryModel : Option String
  hasCredential : Bool
  completion : CompletionOutcome
deriving Repr, DecidableEq

/-- A pending turn-end subscription: the connection it was registered on and
its subscription id. -/
structure Subscription where
  connId : Nat
  subscriptionId : String
deriving Repr, DecidableEq

/-- The per-process server bookkeeping handleCommand mutates: the pending
turn-end subscriptions, and a counter standing in for the timestamp and
random component of server-generated subscription ids. -/
structure ServerState where
  subs : List Subscription
  nextSubId : Nat
deriving Repr, DecidableEq

/-- A frame written to a connection. -/
inductive Frame where
  | response (r : RpcResponse) : Frame
  | event (e : RpcEvent) : Frame
deriving Repr

/-- Requests handleCommand issues to its collaborators: the abort signal,
the rewindTo call of the session manager, and pi.sendMessage with the
message content and the deliverAs option (absent on the idle path). -/
inductive Effect where
  | abortSignal : Effect
  | rewindTo (id : String) : Effect
  | sendMessage (content : String) (deliverAs : Option String) : Effect
deriving Repr, DecidableEq

/-- The result of dispatching one command: the new server state, the frames
written back on the connection, and the collaborator requests issued. -/
structure DispatchResult where
  state : ServerState
  frames : List Frame
  effects : List Effect
deriving Repr

/-- The correlation id of a command: its id field when that is a string
(control.ts line 142). -/
def cmdId (cmd : Command) : Option String :=
  cmd.json.getStr "id"

/-- Build a Response frame for a command, as the respond helper of
handleCommand does. -/
def mkResponse (command : String) (success : Bool) (data : Option Json)
    (error : Option String) (id : Option String) : Frame :=
  Frame.response { command := command, success := success, data := data,
                   error := error, id := id }

/-- The JSON projection of an extracted message. -/
def extractedToJson (m : ExtractedMessage) : Json :=
  Json.obj [("role", Json.str m.role), ("content", Json.str m.content),
            ("timestamp", Json.num m.timestamp)]

/-- The JSON value of the message field of a get_message response: null when
no assistant turn with text content exists. -/
def messageJson : Option ExtractedMessage → Json
  | none => Json.null
  | some m => extractedToJson m

/-- Does the message trim to the empty string?  A string trims to empty
exactly when every character is whitespace, which is how the check
message.trim().length === 0 of the send handler is modelled. -/
def trimsToEmpty (m : String) : Bool :=
  m.toList.all (fun c => c.isWhitespace)

/-- The summarize condition of the clear handler: if (command.summarize)
tests JS truthiness of the field value, absent being falsy. -/
def summarizeTruthy (cmd : Command) : Bool :=
  match cmd.json.getField "summarize" with
  | some v => jsTruthy v
  | none => false

/-- The mode value of a send command: command.mode ?? steer, the nullish
coalescing defaulting only a null or absent field; any other JSON value is
kept as is and echoed in the response. -/
def modeValue (cmd : Command) : Json :=
  match cmd.json.getField "mode" with
  | none => Json.str "steer"
  | some Json.null => Json.str "steer"
  | some v => v

/-- The strict equality test mode === follow_up of the send handler. -/
def isFollowUp : Json → Bool
  | Json.str s => s = "follow_up"
  | _ => false

/-- The subscribe branch of handleCommand (control.ts lines 166 to 183): a
turn_end event value registers a one-shot subscription keyed by the client
id or a server-generated one and answers with the subscription id; any
other event value fails with Unknown event type interpolating the value. -/
def handleSubscribe (st : ServerState) (conn : Nat) (cmd : Command) : DispatchResult :=
  if cmd.json.getStr "event" = some "turn_end" then
    let subId := match cmdId cmd with
      | some i => i
      | none => "sub_" ++ toString st.nextSubId
    { state := { subs := st.subs ++ [{ connId := conn, subscriptionId := subId }],
                 nextSubId := st.nextSubId + 1 },
      frames := [mkResponse "subscribe" true
        (some (Json.obj [("subscriptionId", Json.str subId),
                         ("event", Json.str "turn_end")]))
        none (cmdId cmd)],
      effects := [] }
  else
    { state := st,
      frames := [mkResponse "subscribe" false none
        (some ("Unknown event type: " ++ jsTemplate (cmd.json.getField "event")))
        (cmdId cmd)],
      effects := [] }

/-- The get_message branch of handleCommand (control.ts lines 186 to 194):
always a success, with message null when no assistant message exists. -/
def handleGetMessage (s : Session) (st : ServerState) (cmd : Command) : DispatchResult :=
  match getLastAssistantMessage s.branch with
  | none =>
      { state := st,
        frames := [mkResponse "get_message" true
          (some (Json.obj [("message", Json.null)])) none (cmdId cmd)],
        effects := [] }
  | some m =>
      { state := st,
        frames := [mkResponse "get_message" true
          (some (Json.obj [("message", extractedToJson m)])) none (cmdId cmd)],
        effects := [] }

/-- The get_summary branch of handleCommand (control.ts lines 197 to 250),
checking in order: messages since the last prompt, the selected model, the
API key, then the completion outcome: the aborted or error stop reasons
fail as Summarization failed, a thrown completion as Summarization failed
with the message, and a successful one returns the joined text parts and
the model id. -/
def handleGetSummary (s : Session) (st : ServerState) (cmd : Command) : DispatchResult :=
  if (getMessagesSinceLastPrompt s.branch).isEmpty then
    { state := st,
      frames := [mkResponse "get_summary" false none
        (some "No messages to summarize") (cmdId cmd)],
      effects := [] }
  else
    match s.summaryModel with
    | none =>
        { state := st,
          frames := [mkResponse "get_summary" false none
            (some "No model available for summarization") (cmdId cmd)],
          effects := [] }
    | some model =>
      if !s.hasCredential then
        { state := st,
          frames := [mkResponse "get_summary" false none
            (some "No API key available for summarization model") (cmdId cmd)],
          effects := [] }
      else
        match s.completion with
        | CompletionOutcome.aborted =>
            { state := st,
              frames := [mkResponse "get_summary" false none
                (some "Summarization failed") (cmdId cmd)],
              effects := [] }
        | CompletionOutcome.errored =>
            { state := st,
              frames := [mkResponse "get_summary" false none
                (some "Summarization failed") (cmdId cmd)],
              effects := [] }
        | CompletionOutcome.thrown msg =>
            { state := st,
              frames := [mkResponse "get_summary" false none
                (some ("Summarization failed: " ++ msg)) (cmdId cmd)],
              effects := [] }
        | CompletionOutcome.ok parts =>
            { state := st,
              frames := [mkResponse "get_summary" true
                (some (Json.obj
                  [("summary", Json.str (String.intercalate "\n" (textParts parts))),
                   ("model", Json.str model)]))
                none (cmdId cmd)],
              effects := [] }

/-- The clear branch of handleCommand (control.ts lines 253 to 295),
checking in order: the busy state, the absence of entries, the leaf already
sitting at the first entry id, the summarize option, the missing rewindTo
method; then it rewinds to the first entry id, reporting a thrown rewind as
Clear failed. -/
def handleClear (s : Session) (st : ServerState) (cmd : Command) : DispatchResult :=
  if !s.isIdle then
    { state := st,
      frames := [mkResponse "clear" false none
        (some "Session is busy - wait for turn to complete") (cmdId cmd)],
      effects := [] }
  else
    match getFirstEntryId s.entries with
    | none =>
        { state := st,
          frames := [mkResponse "clear" false none
            (some "No entries in session") (cmdId cmd)],
          effects := [] }
    | some firstId =>
      if s.leafId = some firstId then
        { state := st,
          frames := [mkResponse "clear" true
            (some (Json.obj [("cleared", Json.bool true),
                             ("alreadyAtRoot", Json.bool true)]))
            none (cmdId cmd)],
          effects := [] }
      else if summarizeTruthy cmd then
        { state := st,
          frames := [mkResponse "clear" false none
            (some "Clear with summarization not supported via RPC - use summarize=false")
            (cmdId cmd)],
          effects := [] }
      else if !s.rewindSupported then
        { state := st,
          frames := [mkResponse "clear" false none
            (some "Session manager does not support rewindTo") (cmdId cmd)],
          effects := [] }
      else
        match s.rewindThrows with
        | some msg =>
            { state := st,
              frames := [mkResponse "clear" false none
                (some ("Clear failed: " ++ msg)) (cmdId cmd)],
              effects := [Effect.rewindTo firstId] }
        | none =>
            { state := st,
              frames := [mkResponse "clear" true
                (some (Json.obj [("cleared", Json.bool true),
                                 ("targetId", Json.str firstId)]))
                none (cmdId cmd)],
              effects := [Effect.rewindTo firstId] }

/-- The send branch of handleCommand (control.ts lines 298 to 324): a
missing, non-string or trim-empty message fails as Missing message;
otherwise the message is delivered via sendMessage, without a deliverAs
option when idle and with the deliverAs mapping of the mode when busy, and
the response reports delivered true with mode direct when idle and the raw
mode value when busy. -/
def handleSend (s : Session) (st : ServerState) (cmd : Command) : DispatchResult :=
  match cmd.json.getStr "message" with
  | none =>
      { state := st,
        frames := [mkResponse "send" false none (some "Missing message") (cmdId cmd)],
        effects := [] }
  | some message =>
    if trimsToEmpty message then
      { state := st,
        frames := [mkResponse "send" false none (some "Missing message") (cmdId cmd)],
        effects := [] }
    else
      let mode := modeValue cmd
      if s.isIdle then
        { state := st,
          frames := [mkResponse "send" true
            (some (Json.obj [("delivered", Json.bool true),
                             ("mode", Json.str "direct")]))
            none (cmdId cmd)],
          effects := [Effect.sendMessage message none] }
      else
        { state := st,
          frames := [mkResponse "send" true
            (some (Json.obj [("delivered", Json.bool true), ("mode", mode)]))
            none (cmdId cmd)],
          effects := [Effect.sendMessage message
            (some (if isFollowUp mode then "followUp" else "steer"))] }

/-- Embedded from src (control.ts handleCommand), the branches split out
above by command type in the order of the source.  With no session context
attached every command fails with Session not ready; abort signals the
abort control and succeeds with no data; any type tag other than the six
known ones fails as Unsupported command. -/
def handleCommand (ctx : Option Session) (st : ServerState) (conn : Nat)
    (cmd : Command) : DispatchResult :=
  match ctx with
  | none =>
      { state := st,
        frames := [mkResponse cmd.type false none (some "Session not ready") (cmdId cmd)],
        effects := [] }
  | some s =>
    if cmd.type = "abort" then
      { state := st,
        frames := [mkResponse "abort" true none none (cmdId cmd)],
        effects := [Effect.abortSignal] }
    else if cmd.type = "subscribe" then handleSubscribe st conn cmd
    else if cmd.type = "get_message" then handleGetMessage s st cmd
    else if cmd.type = "get_summary" then handleGetSummary s st cmd
    else if cmd.type = "clear" then handleClear s st cmd
    else if cmd.type = "send" then handleSend s st cmd
    else
      { state := st,
        frames := [mkResponse cmd.type false none
          (some ("Unsupported command: " ++ cmd.type)) (cmdId cmd)],
        effects := [] }

/-- Embedded from src (control.ts createServer, per line): the outcome of
JSON.parse on one trimmed nonempty line goes through parseCommand; a
decoding failure is answered with a synthetic parse Response wrapping the
decoder error once more in Failed to parse command, with no data and no id;
a decoded command goes to handleCommand. -/
def handleLine (ctx : Option Session) (st : ServerState) (conn : Nat)
    (line : Except String Json) : DispatchResult :=
  match parseCommand line with
  | Except.error e =>
      { state := st,
        frames := [mkResponse "parse" false none
          (some ("Failed to parse command: " ++ e)) none],
        effects := [] }
  | Except.ok cmd => handleCommand ctx st conn cmd

/-- Count the Response frames in a list of frames. -/
def responseCount (fs : List Frame) : Nat :=
  (fs.filter (fun f =>
    match f with
    | Frame.response _ => true
    | Frame.event _ => false)).length

/-- Embedded from src (control.ts, the turn_end handler): a no-op when no
subscriptions are pending; otherwise it builds the event data from the
latest assistant message (a field JSON.stringify drops when there is none)
and the turn index, takes the full subscriber list clearing it, and writes
one turn_end Event frame per subscriber to that connection carrying its
subscription id. -/
def fireTurnEnd (s : Session) (st : ServerState) (turnIndex : Int) :
    ServerState × List (Nat × Frame) :=
  if st.subs.isEmpty then (st, [])
  else
    let eventData := Json.obj
      (optField "message" ((getLastAssistantMessage s.branch).map extractedToJson)
       ++ [("turnIndex", Json.num turnIndex)])
    ({ st with subs := [] },
     st.subs.map (fun sub =>
       (sub.connId, Frame.event
         { event := "turn_end",
           data := some eventData,
           subscriptionId := some sub.subscriptionId })))

/-! ### Socket and alias directory management (lib/control-socket.ts) -/

/-- Does s contain sub as a substring?  Models String.prototype.includes. -/
def containsSub (s sub : String) : Bool :=
  (List.range (s.toList.length + 1)).any (fun i => sub.toList.isPrefixOf (s.toList.drop i))

/-- The filename suffix of session control sockets. -/
def SOCKET_SUFFIX : String := ".sock"

/-- Embedded from src (lib/control-socket.ts isSafeSessionId): a session id
is path-safe when it contains no slash, no backslash, no parent-directory
sequence, and is nonempty. -/
def isSafeSessionId (s : String) : Bool :=
  !containsSub s "/" && !containsSub s "\\" && !containsSub s ".." && decide (s.length > 0)

/-- Embedded from src (lib/control-socket.ts isSafeAlias): the same checks
applied to alias names, a separate function in the source. -/
def isSafeAlias (a : String) : Bool :=
  !containsSub a "/" && !containsSub a "\\" && !containsSub a ".." && decide (a.length > 0)

/-- The control directory path, path.join(os.homedir(), .pi,
session-control), parameterized by the home directory. -/
def CONTROL_DIR (home : String) : String :=
  home ++ "/.pi/session-control"

/-- path.resolve of a symlink target against a directory: an absolute target
(leading slash) stands alone, a relative one is joined to the directory.
Dot-segment normalization is not modelled; the paths the extension stores
contain no dot segments. -/
def resolvePath (dir target : String) : String :=
  if target.toList.head? = some '/' then target else dir ++ "/" ++ target

/-- The basename of a path: the component after the last slash. -/
def basenameChars (l : List Char) : List Char :=
  (l.reverse.takeWhile (fun c => c ≠ '/')).reverse

/-- The basename of a path string, as path.basename computes it for the
slash-terminated-free paths arising here. -/
def basename (t : String) : String :=
  String.mk (basenameChars t.toList)

/-- base.endsWith(SOCKET_SUFFIX) combined with the slice that removes it:
none when the basename does not end with the socket suffix. -/
def dropSockSuffix (t : String) : Option String :=
  if SOCKET_SUFFIX.toList.isSuffixOf t.toList then
    some (String.mk (t.toList.take (t.toList.length - SOCKET_SUFFIX.toList.length)))
  else none

/-- The alias symlinks of the control directory, as a map from alias names
to the targets their symlinks store; an absent name is a link readlink
throws on. -/
def AliasDir : Type := List (String × String)

/-- Read the symlink stored at an alias name, none when absent. -/
def lookupAlias (d : AliasDir) (aliasName : String) : Option String :=
  (d.find? (fun e => e.1 = aliasName)).map (fun e => e.2)

/-- Embedded from src (lib/control-socket.ts createAliasSymlink): an empty
or unsafe alias returns silently leaving the directory unchanged; otherwise
any pre-existing link at the alias path is unlinked (a missing one is
tolerated) and a relative symlink to the socket filename of the session id
is created. -/
def createAliasSymlink (sessionId aliasName : String) (d : AliasDir) : AliasDir :=
  if aliasName.length = 0 || !isSafeAlias aliasName then d
  else (aliasName, sessionId ++ SOCKET_SUFFIX) :: d.filter (fun e => e.1 ≠ aliasName)

/-- Embedded from src (lib/control-socket.ts resolveSessionIdFromAlias): an
empty or unsafe alias returns null; the symlink is read (a throwing readlink
returns null), its target resolved against the control directory, the
basename of the resolved target must end with the socket suffix, and the id
obtained by slicing the suffix off must be path-safe; null on any failure
rather than raising. -/
def resolveSessionIdFromAlias (home : String) (d : AliasDir) (aliasName : String) :
    Option String :=
  if aliasName.length = 0 || !isSafeAlias aliasName then none
  else
    match lookupAlias d aliasName with
    | none => none
    | some target =>
        match dropSockSuffix (basename (resolvePath (CONTROL_DIR home) target)) with
        | none => none
        | some sessionId =>
            if isSafeSessionId sessionId then some sessionId else none

/-- One symlink entry of the control directory as the alias sweep sees it:
the directory entry name and the target readlink reports, none when
readlink throws. -/
structure SymlinkEntry where
  name : String
  target : Option String
deriving Repr, DecidableEq

/-- The control directory as a whole: the socket files present and the
symlink entries. -/
structure ControlDir where
  sockets : List String
  links : List SymlinkEntry
deriving Repr, DecidableEq

/-- A mutating filesystem operation performed on the control directory. -/
inductive FsOp where
  | unlink (path : String) : FsOp
deriving Repr, DecidableEq

/-- Embedded from src (lib/control-socket.ts removeSocket): a null socket
path returns immediately; otherwise the socket file is unlinked, a missing
file being tolerated. -/
def removeSocket : Option String → ControlDir → ControlDir × List FsOp
  | none, d => (d, [])
  | some p, d => ({ d with sockets := d.sockets.erase p }, [FsOp.unlink p])

/-- Does a symlink entry point at the socket path, after resolving its
target against the control directory?  Unreadable links are skipped. -/
def linkMatches (home socketPath : String) (e : SymlinkEntry) : Bool :=
  match e.target with
  | none => false
  | some t => resolvePath (CONTROL_DIR home) t = socketPath

/-- Embedded from src (lib/control-socket.ts removeAliasesForSocket): a null
socket path returns immediately before the directory scan; otherwise every
symlink entry of the control directory whose readable target resolves to
the socket path is unlinked, the others and the unreadable ones are
skipped. -/
def removeAliasesForSocket (home : String) :
    Option String → ControlDir → ControlDir × List FsOp
  | none, d => (d, [])
  | some socketPath, d =>
      ({ d with links := d.links.filter (fun e => !linkMatches home socketPath e) },
       (d.links.filter (linkMatches home socketPath)).map
         (fun e => FsOp.unlink (CONTROL_DIR home ++ "/" ++ e.name)))

/-! ### The RPC client (lib/control-rpc.ts sendRpcCommand) -/

/-- One thing the RPC client observes on its connection: a nonempty line
whose JSON.parse succeeded (the parsed value), a line JSON.parse throws on
(ignored by the loop), a socket-level error, or the expiry of the timeout
timer (which destroys the socket with an RPC timeout error). -/
inductive ClientIncoming where
  | frame (j : Json) : ClientIncoming
  | badLine : ClientIncoming
  | socketError : ClientIncoming
  | timeout : ClientIncoming
deriving Repr

/-- The reasons the RPC client rejects a call. -/
inductive RejectReason where
  | socketError : RejectReason
  | timeout : RejectReason
  | eventBeforeResponse : RejectReason
deriving Repr, DecidableEq

/-- The outcome of an RPC client call after observing a finite sequence of
incoming items: resolved with the response value and the optional event
payload, rejected, or still pending with the currently captured response. -/
inductive RpcOutcome where
  | resolved (response : Json) (event : Option Json) : RpcOutcome
  | rejected (reason : RejectReason) : RpcOutcome
  | pending (response : Option Json) : RpcOutcome
deriving Repr

/-- The event payload msg.data or empty-object: the JS or-default keeps a
truthy data value and replaces a falsy or absent one. -/
def eventPayload (j : Json) : Json :=
  match j.getField "data" with
  | some d => if jsTruthy d then d else Json.obj []
  | none => Json.obj []

/-- Embedded from src (lib/control-rpc.ts sendRpcCommand, the data loop),
carrying the response variable.  A parsed line whose type field is response
and whose command field equals the sent command type is assigned to the
response variable, overwriting any earlier capture; with no event wait the
call then resolves with it immediately, whatever its success flag.  Other
response-typed lines, event lines while not waiting, events of other names
and unparseable lines are passed over.  A turn_end event line while waiting
for turn_end resolves the call with the captured response and the event
payload, and rejects it when no response was captured yet.  A socket error
or the timeout rejects the call. -/
def runClientAux (cmdType : String) (wait : Option String)
    (response : Option Json) : List ClientIncoming → RpcOutcome
  | [] => RpcOutcome.pending response
  | ClientIncoming.socketError :: _ => RpcOutcome.rejected RejectReason.socketError
  | ClientIncoming.timeout :: _ => RpcOutcome.rejected RejectReason.timeout
  | ClientIncoming.badLine :: rest => runClientAux cmdType wait response rest
  | ClientIncoming.frame j :: rest =>
      if j.getStr "type" = some "response" then
        if j.getStr "command" = some cmdType then
          match wait with
          | none => RpcOutcome.resolved j none
          | some _ => runClientAux cmdType wait (some j) rest
        else runClientAux cmdType wait response rest
      else if j.getStr "type" = some "event" ∧ j.getStr "event" = some "turn_end" ∧
          wait = some "turn_end" then
        match response with
        | none => RpcOutcome.rejected RejectReason.eventBeforeResponse
        | some r => RpcOutcome.resolved r (some (eventPayload j))
      else runClientAux cmdType wait response rest

/-- The outcome of one RPC client call on a finite incoming sequence,
starting with no response captured. -/
def sendRpcCommand (cmdType : String) (wait : Option String)
    (items : List ClientIncoming) : RpcOutcome :=
  runClientAux cmdType wait none items

/-! ### Helper lemmas -/

theorem decodeResponse_responseToJson (r : RpcResponse) :
    decodeResponse (responseToJson r) = some r := by
  obtain ⟨cmd, ok, data, err, i⟩ := r
  cases data <;> cases err <;> cases i <;>
    simp [decodeResponse, responseToJson, optField, Json.getStr, Json.getField]

theorem decodeEvent_eventToJson (e : RpcEvent) :
    decodeEvent (eventToJson e) = some e := by
  obtain ⟨name, data, sub⟩ := e
  cases data <;> cases sub <;>
    simp [decodeEvent, eventToJson, optField, Json.getStr, Json.getField]

theorem handleSubscribe_responseCount (st : ServerState) (conn : Nat)
    (cmd : Command) : responseCount (handleSubscribe st conn cmd).frames = 1 := by
  unfold handleSubscribe
  split
  all_goals rfl

theorem handleGetMessage_responseCount (s : Session) (st : ServerState)
    (cmd : Command) : responseCount (handleGetMessage s st cmd).frames = 1 := by
  unfold handleGetMessage
  split
  all_goals rfl

theorem handleGetSummary_responseCount (s : Session) (st : ServerState)
    (cmd : Command) : responseCount (handleGetSummary s st cmd).frames = 1 := by
  unfold handleGetSummary
  repeat' split
  all_goals rfl

theorem handleClear_responseCount (s : Session) (st : ServerState)
    (cmd : Command) : responseCount (handleClear s st cmd).frames = 1 := by
  unfold handleClear
  repeat' split
  all_goals rfl

theorem handleSend_responseCount (s : Session) (st : ServerState)
    (cmd : Command) : responseCount (handleSend s st cmd).frames = 1 := by
  unfold handleSend
  repeat' split
  all_goals rfl

/-- Every dispatched command is answered with exactly one Response frame. -/
theorem handleCommand_responseCount (ctx : Option Session) (st : ServerState)
    (conn : Nat) (cmd : Command) :
    responseCount (handleCommand ctx st conn cmd).frames = 1 := by
  cases ctx with
  | none => rfl
  | some s =>
      rw [handleCommand.eq_def]
      repeat' split
      all_goals first
        | rfl
        | exact handleSubscribe_responseCount st conn cmd
        | exact handleGetMessage_responseCount _ st cmd
        | exact handleGetSummary_responseCount _ st cmd
        | exact handleClear_responseCount _ st cmd
        | exact handleSend_responseCount _ st cmd

/-- The backward scan returns none exactly when no entry matches. -/
theorem lastAssistantRev_eq_none_iff (l : List Entry) :
    lastAssistantRev l = none ↔ ∀ e ∈ l, isAssistantTextEntry e = false := by
  induction l with
  | nil => simp [lastAssistantRev]
  | cons e rest ih =>
      cases h : isAssistantTextEntry e <;> simp [lastAssistantRev, h, ih]

/-- The backward scan returns the projection of the first matching entry of
its input, with no matching entry before it. -/
theorem lastAssistantRev_eq_some (l : List Entry) (m : ExtractedMessage)
    (hm : lastAssistantRev l = some m) :
    ∃ l₁ e l₂, l = l₁ ++ e :: l₂ ∧ isAssistantTextEntry e = true ∧
      (∀ x ∈ l₁, isAssistantTextEntry x = false) ∧ m = extractAssistant e := by
  induction l with
  | nil => simp [lastAssistantRev] at hm
  | cons e rest ih =>
      cases h : isAssistantTextEntry e with
      | true =>
          refine ⟨[], e, rest, rfl, h, by simp, ?_⟩
          simp [lastAssistantRev, h] at hm
          exact hm.symm
      | false =>
          simp only [lastAssistantRev, h, Bool.false_eq_true, if_false] at hm
          obtain ⟨l₁, x, l₂, rfl, hx, hl₁, hm⟩ := ih hm
          exact ⟨e :: l₁, x, l₂, rfl, hx, by simpa [h] using hl₁, hm⟩

/-- Substrings witnessed by a decomposition are found by containsSub. -/
theorem containsSub_of_parts (s sub : String)
    (h : ∃ t u, t ++ sub.toList ++ u = s.toList) : containsSub s sub = true := by
  obtain ⟨t, u, hdecomp⟩ := h
  unfold containsSub
  rw [List.any_eq_true]
  refine ⟨t.length, List.mem_range.mpr ?_, ?_⟩
  · have hlen := congrArg List.length hdecomp
    simp only [List.length_append] at hlen
    omega
  · rw [← hdecomp, List.append_assoc, List.drop_left]
    rw [ List.isPrefixOf_iff_prefix]
    exact List.prefix_append _ _

/-- A path-safe name contains no slash character. -/
theorem no_slash_of_safe (s : String) (hs : isSafeSessionId s = true) :
    ∀ c ∈ s.toList, c ≠ '/' := by
  intro c hc hslash
  subst hslash
  have hcontains : containsSub s "/" = true := by
    apply containsSub_of_parts
    obtain ⟨t, u, heq⟩ := List.append_of_mem hc
    refine ⟨t, u, ?_⟩
    rw [heq, List.append_assoc]
    rfl
  simp [isSafeSessionId, hcontains] at hs

/-- The two path-safety checks of the source have the same body. -/
theorem isSafeAlias_eq (s : String) : isSafeAlias s = isSafeSessionId s := rfl

/-- A path-safe name is nonempty. -/
theorem safe_length_pos (s : String) (hs : isSafeSessionId s = true) :
    0 < s.length := by
  simp only [isSafeSessionId, Bool.and_eq_true, decide_eq_true_eq] at hs
  exact hs.2

/-- takeWhile passes over a block of satisfying elements. -/
theorem takeWhile_append_all (p : Char → Bool) (A l : List Char)
    (hA : ∀ a ∈ A, p a = true) :
    (A ++ l).takeWhile p = A ++ l.takeWhile p := by
  induction A with
  | nil => rfl
  | cons a A ih =>
      simp only [List.cons_append, List.takeWhile_cons,
        hA a (List.mem_cons_self a A), if_true]
      rw [ih (fun x hx => hA x (List.mem_cons_of_mem a hx))]

/-- The basename of a path whose last component is slash-free is that
component. -/
theorem basename_append_of_no_slash (x t : String)
    (h : ∀ c ∈ t.toList, c ≠ '/') : basename (x ++ "/" ++ t) = t := by
  unfold basename basenameChars
  have htl : (x ++ "/" ++ t).toList = x.toList ++ ['/'] ++ t.toList := rfl
  rw [htl]
  have hrev : (x.toList ++ ['/'] ++ t.toList).reverse =
      t.toList.reverse ++ ('/' :: x.toList.reverse) := by
    simp [List.reverse_append]
  rw [hrev, takeWhile_append_all _ _ _
    (fun a ha => by simpa using h a (List.mem_reverse.mp ha))]
  simp only [List.takeWhile_cons]
  norm_num

/-- Stripping the socket suffix undoes appending it. -/
theorem dropSockSuffix_append (s : String) :
    dropSockSuffix (s ++ SOCKET_SUFFIX) = some s := by
  unfold dropSockSuffix
  have htl : (s ++ SOCKET_SUFFIX).toList = s.toList ++ SOCKET_SUFFIX.toList := rfl
  rw [htl]
  have hsuf : SOCKET_SUFFIX.toList.isSuffixOf (s.toList ++ SOCKET_SUFFIX.toList) = true := by
    simp [List.isSuffixOf_iff_suffix]
  rw [hsuf]
  simp only [List.length_append, Nat.add_sub_cancel, if_true]
  rw [List.take_left]
  rfl

/-! ### The claims -/

/-- C1: for every decoded Command handled by the dispatcher, any of the six
known types as well as any other value with a string type tag, exactly one
Response frame is written back on the connection; a line that fails to
decode is answered with a synthetic Response with command parse and success
false carrying the wrapped decoder error; in no case does line handling
finish without writing a Response. -/
theorem line_handling_writes_exactly_one_response (ctx : Option Session)
    (st : ServerState) (conn : Nat) (line : Except String Json) :
    responseCount (handleLine ctx st conn line).frames = 1 ∧
    (∀ e, parseCommand line = Except.error e →
      (handleLine ctx st conn line).frames =
        [Frame.response { command := "parse", success := false, data := none,
                          error := some ("Failed to parse command: " ++ e),
                          id := none }]) := by
  constructor
  · unfold handleLine
    cases h : parseCommand line with
    | error e => simp [responseCount, mkResponse]
    | ok cmd => exact handleCommand_responseCount ctx st conn cmd
  · intro e he
    unfold handleLine
    rw [he]
    rfl

/-- Witness for C1: a line holding the JSON value null, which fails to
decode, is answered with exactly one synthetic parse Response. -/
theorem line_handling_writes_exactly_one_response_witness :
    responseCount (handleLine none { subs := [], nextSubId := 0 } 0
      (Except.ok Json.null)).frames = 1 ∧
    (handleLine none { subs := [], nextSubId := 0 } 0 (Except.ok Json.null)).frames =
      [Frame.response { command := "parse", success := false, data := none,
                        error := some "Failed to parse command: Invalid command: expected JSON object",
                        id := none }] :=
  ⟨(line_handling_writes_exactly_one_response none { subs := [], nextSubId := 0 } 0
      (Except.ok Json.null)).1,
   (line_handling_writes_exactly_one_response none { subs := [], nextSubId := 0 } 0
      (Except.ok Json.null)).2 "Invalid command: expected JSON object" rfl⟩

/-- C2: turn-end subscriptions are one-shot.  When the turn-completion
callback fires it writes exactly one turn_end Event frame per pending
subscription, addressed to the connection of that subscription and carrying
its subscription id together with the event data (the latest assistant
message, a field dropped when there is none, and the turn index); the
pending list is empty afterwards; a subsequent turn completion with no new
subscriptions writes zero Event frames. -/
theorem turn_end_subscriptions_one_shot (s : Session) (st : ServerState)
    (turnIndex : Int) :
    (fireTurnEnd s st turnIndex).2 =
      st.subs.map (fun sub =>
        (sub.connId, Frame.event
          { event := "turn_end",
            data := some (Json.obj
              (optField "message"
                ((getLastAssistantMessage s.branch).map extractedToJson)
               ++ [("turnIndex", Json.num turnIndex)])),
            subscriptionId := some sub.subscriptionId })) ∧
    (fireTurnEnd s st turnIndex).1.subs = [] ∧
    (∀ s2 t2, (fireTurnEnd s2 (fireTurnEnd s st turnIndex).1 t2).2 = []) := by
  unfold fireTurnEnd
  by_cases h : st.subs.isEmpty
  · rw [List.isEmpty_iff] at h
    simp [h, fireTurnEnd]
  · simp only [h]
    refine ⟨rfl, rfl, ?_⟩
    intro s2 t2
    simp [fireTurnEnd]

/-- C3 (amended): the decoder reports the Invalid command: expected JSON
object error exactly when the parsed value is falsy or its JS typeof is not
object; a parsed array, although not an object, passes that check (typeof
of an array is object) and is reported as Missing command type, which
occurs exactly on truthy object-like values without a string type field;
any value with a string type field decodes to the object typed by its type
tag; and a JSON.parse failure is wrapped in Failed to parse command. -/
theorem parseCommand_checks (j : Json) :
    (parseCommand (Except.ok j) = Except.error "Invalid command: expected JSON object" ↔
      jsTruthy j = false ∨ j.isJsObjectLike = false) ∧
    (parseCommand (Except.ok j) = Except.error "Missing command type" ↔
      jsTruthy j = true ∧ j.isJsObjectLike = true ∧ j.getStr "type" = none) ∧
    (∀ t, j.getStr "type" = some t →
      parseCommand (Except.ok j) = Except.ok { type := t, json := j }) ∧
    (∀ m, parseCommand (Except.error m) =
      Except.error ("Failed to parse command: " ++ m)) := by
  have hne : ("Missing command type" : String) ≠
      "Invalid command: expected JSON object" := by decide
  refine ⟨?_, ?_, ?_, fun m => rfl⟩
  · by_cases h1 : jsTruthy j
    · by_cases h2 : j.isJsObjectLike
      · cases hg : j.getStr "type" with
        | none => simp [parseCommand, h1, h2, hg, hne]
        | some t => simp [parseCommand, h1, h2, hg]
      · simp [parseCommand, h1, h2]
    · simp [parseCommand, h1]
  · by_cases h1 : jsTruthy j
    · by_cases h2 : j.isJsObjectLike
      · cases hg : j.getStr "type" with
        | none => simp [parseCommand, h1, h2, hg]
        | some t => simp [parseCommand, h1, h2, hg]
      · simp [parseCommand, h1, h2, hne.symm]
    · simp [parseCommand, h1, hne.symm]
  · intro t ht
    cases j with
    | obj fs => simp [parseCommand, jsTruthy, Json.isJsObjectLike, ht]
    | null => simp [Json.getStr, Json.getField] at ht
    | bool b => simp [Json.getStr, Json.getField] at ht
    | num n => simp [Json.getStr, Json.getField] at ht
    | str s => simp [Json.getStr, Json.getField] at ht
    | arr xs => simp [Json.getStr, Json.getField] at ht

/-- Witness for C3: a concrete object with a string type tag decodes. -/
theorem parseCommand_checks_witness :
    parseCommand (Except.ok (Json.obj [("type", Json.str "abort")])) =
      Except.ok { type := "abort", json := Json.obj [("type", Json.str "abort")] } :=
  (parseCommand_checks (Json.obj [("type", Json.str "abort")])).2.2.1 "abort" rfl

/-- C3 counterexample: an input line parsing to the empty array.  The array
is not an object in the data-model sense, yet the decoder does not report
the not-an-object error for it, because typeof of an array is object in JS:
it reports Missing command type. -/
theorem parseCommand_array_counterexample :
    parseCommand (Except.ok (Json.arr [])) = Except.error "Missing command type" ∧
    Json.isObj (Json.arr []) = false ∧
    parseCommand (Except.ok (Json.arr [])) ≠
      Except.error "Invalid command: expected JSON object" := by
  refine ⟨rfl, rfl, ?_⟩
  intro h
  rw [show parseCommand (Except.ok (Json.arr [])) =
    Except.error "Missing command type" from rfl] at h
  injection h with h2
  exact absurd h2 (by decide)

/-- C4: a clear command on a busy session fails with the exact error string
of the source, whose text mentions busy; no collaborator request is issued
(in particular rewindTo is never invoked), and the server state is
unchanged. -/
theorem clear_refused_while_busy (s : Session) (st : ServerState) (conn : Nat)
    (j : Json) (hbusy : s.isIdle = false) :
    handleCommand (some s) st conn { type := "clear", json := j } =
      { state := st,
        frames := [mkResponse "clear" false none
          (some "Session is busy - wait for turn to complete")
          (cmdId { type := "clear", json := j })],
        effects := [] } ∧
    containsSub "Session is busy - wait for turn to complete" "busy" = true := by
  constructor
  · simp [handleCommand, handleClear, hbusy]
  · decide

/-- Witness for C4 at a concrete busy session: the effect list is empty and
the busy error is returned. -/
theorem clear_refused_while_busy_witness :
    handleCommand
      (some { isIdle := false, branch := [], entries := [], leafId := none,
              rewindSupported := true, rewindThrows := none, summaryModel := none,
              hasCredential := false, completion := CompletionOutcome.aborted })
      { subs := [], nextSubId := 0 } 0 { type := "clear", json := Json.obj [] } =
      { state := { subs := [], nextSubId := 0 },
        frames := [mkResponse "clear" false none
          (some "Session is busy - wait for turn to complete") none],
        effects := [] } :=
  (clear_refused_while_busy
    { isIdle := false, branch := [], entries := [], leafId := none,
      rewindSupported := true, rewindThrows := none, summaryModel := none,
      hasCredential := false, completion := CompletionOutcome.aborted }
    { subs := [], nextSubId := 0 } 0 (Json.obj []) rfl).1

/-- C5: a send command with a missing, non-string or trim-empty message
fails with Missing message and delivers nothing; with a nonempty message it
succeeds with delivered true; the reported mode is direct exactly when the
session was idle, the delivery then carrying no deliverAs option; when the
session was busy the reported mode is the requested mode, steer or
follow_up defaulting to steer when the field is absent, and the message is
delivered with the corresponding deliverAs option, followUp for follow_up
and steer for steer. -/
theorem send_modes (s : Session) (st : ServerState) (conn : Nat) (j : Json) :
    (j.getStr "message" = none →
      handleCommand (some s) st conn { type := "send", json := j } =
        { state := st,
          frames := [mkResponse "send" false none (some "Missing message")
            (cmdId { type := "send", json := j })],
          effects := [] }) ∧
    (∀ m, j.getStr "message" = some m → trimsToEmpty m = true →
      handleCommand (some s) st conn { type := "send", json := j } =
        { state := st,
          frames := [mkResponse "send" false none (some "Missing message")
            (cmdId { type := "send", json := j })],
          effects := [] }) ∧
    (∀ m, j.getStr "message" = some m → trimsToEmpty m = false →
      s.isIdle = true →
      handleCommand (some s) st conn { type := "send", json := j } =
        { state := st,
          frames := [mkResponse "send" true
            (some (Json.obj [("delivered", Json.bool true),
                             ("mode", Json.str "direct")]))
            none (cmdId { type := "send", json := j })],
          effects := [Effect.sendMessage m none] }) ∧
    (∀ m, j.getStr "message" = some m → trimsToEmpty m = false →
      s.isIdle = false →
      (j.getField "mode" = none →
        handleCommand (some s) st conn { type := "send", json := j } =
          { state := st,
            frames := [mkResponse "send" true
              (some (Json.obj [("delivered", Json.bool true),
                               ("mode", Json.str "steer")]))
              none (cmdId { type := "send", json := j })],
            effects := [Effect.sendMessage m (some "steer")] }) ∧
      (j.getField "mode" = some (Json.str "steer") →
        handleCommand (some s) st conn { type := "send", json := j } =
          { state := st,
            frames := [mkResponse "send" true
              (some (Json.obj [("delivered", Json.bool true),
                               ("mode", Json.str "steer")]))
              none (cmdId { type := "send", json := j })],
            effects := [Effect.sendMessage m (some "steer")] }) ∧
      (j.getField "mode" = some (Json.str "follow_up") →
        handleCommand (some s) st conn { type := "send", json := j } =
          { state := st,
            frames := [mkResponse "send" true
              (some (Json.obj [("delivered", Json.bool true),
                               ("mode", Json.str "follow_up")]))
              none (cmdId { type := "send", json := j })],
            effects := [Effect.sendMessage m (some "followUp")] })) := by
  refine ⟨?_, ?_, ?_, ?_⟩
  · intro hm
    simp [handleCommand, handleSend, hm]
  · intro m hm ht
    simp [handleCommand, handleSend, hm, ht]
  · intro m hm ht hidle
    simp [handleCommand, handleSend, hm, ht, hidle]
  · intro m hm ht hidle
    refine ⟨?_, ?_, ?_⟩
    all_goals intro hmode
    all_goals simp [handleCommand, handleSend, hm, ht, hidle, modeValue,
      isFollowUp, hmode]

/-- Witness for C5: a concrete follow_up send to a busy session succeeds
with mode follow_up and a followUp delivery, and a concrete missing-message
send fails. -/
theorem send_modes_witness :
    handleCommand
      (some { isIdle := false, branch := [], entries := [], leafId := none,
              rewindSupported := true, rewindThrows := none, summaryModel := none,
              hasCredential := false, completion := CompletionOutcome.aborted })
      { subs := [], nextSubId := 0 } 0
      { type := "send",
        json := Json.obj [("type", Json.str "send"),
                          ("message", Json.str "hello"),
                          ("mode", Json.str "follow_up")] } =
      { state := { subs := [], nextSubId := 0 },
        frames := [mkResponse "send" true
          (some (Json.obj [("delivered", Json.bool true),
                           ("mode", Json.str "follow_up")]))
          none none],
        effects := [Effect.sendMessage "hello" (some "followUp")] } ∧
    handleCommand
      (some { isIdle := false, branch := [], entries := [], leafId := none,
              rewindSupported := true, rewindThrows := none, summaryModel := none,
              hasCredential := false, completion := CompletionOutcome.aborted })
      { subs := [], nextSubId := 0 } 0
      { type := "send", json := Json.obj [("type", Json.str "send")] } =
      { state := { subs := [], nextSubId := 0 },
        frames := [mkResponse "send" false none (some "Missing message") none],
        effects := [] } := by
  constructor
  · exact ((send_modes
      { isIdle := false, branch := [], entries := [], leafId := none,
        rewindSupported := true, rewindThrows := none, summaryModel := none,
        hasCredential := false, completion := CompletionOutcome.aborted }
      { subs := [], nextSubId := 0 } 0
      (Json.obj [("type", Json.str "send"),
                 ("message", Json.str "hello"),
                 ("mode", Json.str "follow_up")])).2.2.2
      "hello" rfl (by decide) rfl).2.2 rfl
  · exact (send_modes
      { isIdle := false, branch := [], entries := [], leafId := none,
        rewindSupported := true, rewindThrows := none, summaryModel := none,
        hasCredential := false, completion := CompletionOutcome.aborted }
      { subs := [], nextSubId := 0 } 0
      (Json.obj [("type", Json.str "send")])).1 rfl

/-- C6: for every conversation branch, get_message produces a single
success Response; its data holds message null exactly when no entry of the
branch is an assistant message with a nonempty list of text parts, and
otherwise holds the most recent such entry projected to role, joined text
content and timestamp. -/
theorem get_message_always_succeeds (s : Session) (st : ServerState)
    (conn : Nat) (j : Json) :
    handleCommand (some s) st conn { type := "get_message", json := j } =
      { state := st,
        frames := [mkResponse "get_message" true
          (some (Json.obj [("message", messageJson (getLastAssistantMessage s.branch))]))
          none (cmdId { type := "get_message", json := j })],
        effects := [] } ∧
    (getLastAssistantMessage s.branch = none ↔
      ∀ e ∈ s.branch, isAssistantTextEntry e = false) ∧
    (∀ m, getLastAssistantMessage s.branch = some m →
      ∃ pre e post, s.branch = pre ++ e :: post ∧ isAssistantTextEntry e = true ∧
        (∀ x ∈ post, isAssistantTextEntry x = false) ∧ m = extractAssistant e) := by
  refine ⟨?_, ?_, ?_⟩
  · cases h : getLastAssistantMessage s.branch with
    | none => simp [handleCommand, handleGetMessage, h, messageJson]
    | some m => simp [handleCommand, handleGetMessage, h, messageJson]
  · rw [getLastAssistantMessage, lastAssistantRev_eq_none_iff]
    constructor
    · intro h e he
      exact h e (List.mem_reverse.mpr he)
    · intro h e he
      exact h e (List.mem_reverse.mp he)
  · intro m hm
    obtain ⟨l₁, e, l₂, hsplit, he, hl₁, hme⟩ :=
      lastAssistantRev_eq_some s.branch.reverse m hm
    refine ⟨l₂.reverse, e, l₁.reverse, ?_, he, ?_, hme⟩
    · have := congrArg List.reverse hsplit
      simpa [List.reverse_append] using this
    · intro x hx
      exact hl₁ x (List.mem_reverse.mp hx)

/-- Witness for C6 at a branch holding one assistant message. -/
theorem get_message_always_succeeds_witness :
    ∃ pre e post,
      ([Entry.message { role := "assistant",
                        content := [ContentPart.text "hi"], timestamp := 5 }] :
        List Entry) = pre ++ e :: post ∧
      isAssistantTextEntry e = true ∧
      (∀ x ∈ post, isAssistantTextEntry x = false) ∧
      ({ role := "assistant", content := "hi", timestamp := 5 } :
        ExtractedMessage) = extractAssistant e :=
  (get_message_always_succeeds
    { isIdle := true,
      branch := [Entry.message { role := "assistant",
                                 content := [ContentPart.text "hi"], timestamp := 5 }],
      entries := [], leafId := none, rewindSupported := true, rewindThrows := none,
      summaryModel := none, hasCredential := false,
      completion := CompletionOutcome.aborted }
    { subs := [], nextSubId := 0 } 0 Json.null).2.2
    { role := "assistant", content := "hi", timestamp := 5 } (by decide)

/-- C7: for every path-safe session id and path-safe alias, resolving the
alias after createAliasSymlink returns the session id, the stored relative
target being resolved against the control directory on the way back; and
resolveSessionIdFromAlias returns none, never raising, whenever the alias
is unsafe, the link is absent or unreadable, the basename of the resolved
target does not end with the socket suffix, or the derived id is not
path-safe. -/
theorem alias_roundtrip_and_failures (home : String) (d : AliasDir) (s a : String) :
    (isSafeSessionId s = true → isSafeAlias a = true →
      resolveSessionIdFromAlias home (createAliasSymlink s a d) a = some s) ∧
    (isSafeAlias a = false → resolveSessionIdFromAlias home d a = none) ∧
    (isSafeAlias a = true → lookupAlias d a = none →
      resolveSessionIdFromAlias home d a = none) ∧
    (∀ target, isSafeAlias a = true → lookupAlias d a = some target →
      dropSockSuffix (basename (resolvePath (CONTROL_DIR home) target)) = none →
      resolveSessionIdFromAlias home d a = none) ∧
    (∀ target i, isSafeAlias a = true → lookupAlias d a = some target →
      dropSockSuffix (basename (resolvePath (CONTROL_DIR home) target)) = some i →
      isSafeSessionId i = false →
      resolveSessionIdFromAlias home d a = none) := by
  refine ⟨?_, ?_, ?_, ?_, ?_⟩
  · intro hs ha
    have ha2 : isSafeSessionId a = true := by rw [← isSafeAlias_eq]; exact ha
    have hlen : ¬ a.length = 0 := by
      have := safe_length_pos a ha2
      omega
    have hslen : ¬ s.length = 0 := by
      have := safe_length_pos s hs
      omega
    have hsne : s.toList ≠ [] := by
      intro hnil
      apply hslen
      have h0 : s.toList.length = 0 := by rw [hnil]; rfl
      simpa using h0
    obtain ⟨c, cs, hcs⟩ := List.exists_cons_of_ne_nil hsne
    have hcslash : ¬ c = '/' := by
      apply no_slash_of_safe s hs
      rw [hcs]
      exact List.mem_cons_self c cs
    have hchead : (s ++ SOCKET_SUFFIX).toList.head? = some c := by
      have htl : (s ++ SOCKET_SUFFIX).toList = s.toList ++ SOCKET_SUFFIX.toList := rfl
      rw [htl, hcs]
      rfl
    have hresolve : resolvePath (CONTROL_DIR home) (s ++ SOCKET_SUFFIX) =
        CONTROL_DIR home ++ "/" ++ (s ++ SOCKET_SUFFIX) := by
      rw [resolvePath, hchead]
      simp [hcslash]
    have hnoslash : ∀ ch ∈ (s ++ SOCKET_SUFFIX).toList, ch ≠ '/' := by
      intro ch hch
      have htl : (s ++ SOCKET_SUFFIX).toList = s.toList ++ SOCKET_SUFFIX.toList := rfl
      rw [htl] at hch
      rcases List.mem_append.mp hch with h | h
      · exact no_slash_of_safe s hs ch h
      · intro hbad
        subst hbad
        exact absurd h (by decide)
    rw [createAliasSymlink, resolveSessionIdFromAlias]
    rw [show (decide (a.length = 0) || !isSafeAlias a) = false from by simp [ha, hlen]]
    simp only [Bool.false_eq_true, if_false]
    have hlook : lookupAlias ((a, s ++ SOCKET_SUFFIX) :: d.filter (fun e => e.1 ≠ a)) a =
        some (s ++ SOCKET_SUFFIX) := by
      simp [lookupAlias, List.find?]
    rw [hlook]
    simp [hresolve, basename_append_of_no_slash _ _ hnoslash,
      dropSockSuffix_append, hs]
  · intro ha
    rw [resolveSessionIdFromAlias]
    simp [ha]
  · intro ha hl
    rw [resolveSessionIdFromAlias]
    have hp := safe_length_pos a (by rw [← isSafeAlias_eq]; exact ha)
    simp [ha, hl, Nat.pos_iff_ne_zero.mp hp]
  · intro target ha hl hd
    rw [resolveSessionIdFromAlias]
    have := safe_length_pos a (by rw [← isSafeAlias_eq]; exact ha)
    simp [ha, hl, hd, Nat.pos_iff_ne_zero.mp this]
  · intro target i ha hl hd hi
    rw [resolveSessionIdFromAlias]
    have := safe_length_pos a (by rw [← isSafeAlias_eq]; exact ha)
    simp [ha, hl, hd, hi, Nat.pos_iff_ne_zero.mp this]

/-- Witness for C7: a concrete alias round-trip through the resolved
symlink target, and a concrete unsafe alias resolving to none. -/
theorem alias_roundtrip_and_failures_witness :
    resolveSessionIdFromAlias "/home/u"
      (createAliasSymlink "s1" "worker1" []) "worker1" = some "s1" ∧
    resolveSessionIdFromAlias "/home/u" [] "a/b" = none :=
  ⟨(alias_roundtrip_and_failures "/home/u" [] "s1" "worker1").1 (by decide) (by decide),
   (alias_roundtrip_and_failures "/home/u" [] "a" "a/b").2.1 (by decide)⟩

/-- C8: every Response and every Event frame serialized by the wire codec
round trips: the line written is the JSON serialization of the frame object
followed by a newline, that serialization parses back (through the JSON
parse model the codec delegates to) to exactly the JSON object that was
written, and reading that object back yields a structurally equal frame,
optional data, error, id and subscriptionId fields included. -/
theorem wire_roundtrip (r : RpcResponse) (e : RpcEvent) :
    writeResponse r = jsonToString (responseToJson r) ++ "\n" ∧
    parseJson (jsonToString (responseToJson r)) = some (responseToJson r) ∧
    decodeResponse (responseToJson r) = some r ∧
    writeEvent e = jsonToString (eventToJson e) ++ "\n" ∧
    parseJson (jsonToString (eventToJson e)) = some (eventToJson e) ∧
    decodeEvent (eventToJson e) = some e :=
  ⟨rfl, parseJson_jsonToString (responseToJson r), decodeResponse_responseToJson r,
   rfl, parseJson_jsonToString (eventToJson e), decodeEvent_eventToJson e⟩

/-- C10: removeSocket and removeAliasesForSocket accept a null socket path
and in that case return before any filesystem operation: the control
directory is unchanged and the operation list is empty, whatever the home
directory. -/
theorem remove_with_null_path_is_noop (home : String) (d : ControlDir) :
    removeSocket none d = (d, []) ∧
    removeAliasesForSocket home none d = (d, []) :=
  ⟨rfl, rfl⟩

/-- Does a parsed line hold a Response frame whose command field matches
the sent command type?  These are the two strict equality checks of the
client loop. -/
def isMatchingResponse (cmdType : String) (j : Json) : Bool :=
  j.getStr "type" == some "response" && j.getStr "command" == some cmdType

/-- An incoming item the client loop passes over without completing when it
is not waiting for an event: any parsed line that is not a matching
Response, and any unparseable line.  Socket errors and the timeout are
never benign. -/
def benignForResponse (cmdType : String) : ClientIncoming → Bool
  | ClientIncoming.frame j => !isMatchingResponse cmdType j
  | ClientIncoming.badLine => true
  | ClientIncoming.socketError => false
  | ClientIncoming.timeout => false

/-- Where a rejection can come from: a socket error item, a timeout item,
or a turn_end event frame while the call subscribed to turn_end. -/
def rejectedOrigin (w : Option String) (items : List ClientIncoming)
    (reason : RejectReason) : Prop :=
  (reason = RejectReason.socketError → ClientIncoming.socketError ∈ items) ∧
  (reason = RejectReason.timeout → ClientIncoming.timeout ∈ items) ∧
  (reason = RejectReason.eventBeforeResponse →
    ∃ j, ClientIncoming.frame j ∈ items ∧ j.getStr "type" = some "event" ∧
      j.getStr "event" = some "turn_end" ∧ w = some "turn_end")

/-- A rejection origin persists when an item is prepended. -/
theorem rejectedOrigin_cons (w : Option String) (x : ClientIncoming)
    (items : List ClientIncoming) (reason : RejectReason)
    (h : rejectedOrigin w items reason) : rejectedOrigin w (x :: items) reason := by
  obtain ⟨h1, h2, h3⟩ := h
  refine ⟨fun e => List.mem_cons_of_mem _ (h1 e),
          fun e => List.mem_cons_of_mem _ (h2 e), fun e => ?_⟩
  obtain ⟨j, hj, ht, hev, hw⟩ := h3 e
  exact ⟨j, List.mem_cons_of_mem _ hj, ht, hev, hw⟩

/-- Benign items are passed over by the client loop when it is not waiting
for an event. -/
theorem runClientAux_skip (cmdType : String) (pre rest : List ClientIncoming)
    (h : ∀ x ∈ pre, benignForResponse cmdType x = true) :
    runClientAux cmdType none none (pre ++ rest) =
      runClientAux cmdType none none rest := by
  induction pre with
  | nil => rfl
  | cons x pre ih =>
      have hx := h x (List.mem_cons_self x pre)
      have hrest : ∀ y ∈ pre, benignForResponse cmdType y = true :=
        fun y hy => h y (List.mem_cons_of_mem x hy)
      cases x with
      | socketError => simp [benignForResponse] at hx
      | timeout => simp [benignForResponse] at hx
      | badLine =>
          rw [List.cons_append]
          rw [show runClientAux cmdType none none
            (ClientIncoming.badLine :: (pre ++ rest)) =
            runClientAux cmdType none none (pre ++ rest) from rfl]
          exact ih hrest
      | frame j =>
          rw [List.cons_append]
          by_cases ht : j.getStr "type" = some "response"
          · by_cases hc : j.getStr "command" = some cmdType
            · exfalso
              simp [benignForResponse, isMatchingResponse, ht, hc] at hx
            · rw [show runClientAux cmdType none none
                (ClientIncoming.frame j :: (pre ++ rest)) =
                runClientAux cmdType none none (pre ++ rest) from by
                  simp [runClientAux, ht, hc]]
              exact ih hrest
          · rw [show runClientAux cmdType none none
              (ClientIncoming.frame j :: (pre ++ rest)) =
              runClientAux cmdType none none (pre ++ rest) from by
                simp [runClientAux, ht]]
            exact ih hrest

/-- Every rejection of the client loop originates in a socket error item, a
timeout item, or a subscribed turn_end event frame, whatever response was
captured. -/
theorem runClientAux_rejected_origin (cmdType : String) (w : Option String) :
    ∀ (items : List ClientIncoming) (captured : Option Json)
      (reason : RejectReason),
      runClientAux cmdType w captured items = RpcOutcome.rejected reason →
      rejectedOrigin w items reason := by
  intro items
  induction items with
  | nil =>
      intro captured reason h
      simp [runClientAux] at h
  | cons x rest ih =>
      intro captured reason h
      cases x with
      | socketError =>
          simp only [runClientAux] at h
          have hr : RejectReason.socketError = reason := by injection h
          subst hr
          refine ⟨fun _ => List.mem_cons_self _ _, ?_, ?_⟩
          all_goals intro hh; exact absurd hh (by decide)
      | timeout =>
          simp only [runClientAux] at h
          have hr : RejectReason.timeout = reason := by injection h
          subst hr
          refine ⟨?_, fun _ => List.mem_cons_self _ _, ?_⟩
          all_goals intro hh; exact absurd hh (by decide)
      | badLine =>
          rw [show runClientAux cmdType w captured (ClientIncoming.badLine :: rest) =
            runClientAux cmdType w captured rest from rfl] at h
          exact rejectedOrigin_cons _ _ _ _ (ih _ _ h)
      | frame j =>
          simp only [runClientAux] at h
          by_cases ht : j.getStr "type" = some "response"
          · rw [if_pos ht] at h
            by_cases hc : j.getStr "command" = some cmdType
            · rw [if_pos hc] at h
              cases w with
              | none => simp at h
              | some wname => exact rejectedOrigin_cons _ _ _ _ (ih _ _ h)
            · rw [if_neg hc] at h
              exact rejectedOrigin_cons _ _ _ _ (ih _ _ h)
          · rw [if_neg ht] at h
            by_cases hev : j.getStr "type" = some "event" ∧
                j.getStr "event" = some "turn_end" ∧ w = some "turn_end"
            · rw [if_pos hev] at h
              cases captured with
              | some r => simp at h
              | none =>
                  have hr : RejectReason.eventBeforeResponse = reason := by
                    injection h
                  subst hr
                  refine ⟨?_, ?_, fun _ => ?_⟩
                  · intro hh; exact absurd hh (by decide)
                  · intro hh; exact absurd hh (by decide)
                  · exact ⟨j, List.mem_cons_self _ _, hev.1, hev.2.1, hev.2.2⟩
            · rw [if_neg hev] at h
              exact rejectedOrigin_cons _ _ _ _ (ih _ _ h)

/-- C9 (amended): with no event wait the client resolves with the first
Response frame whose command field matches the sent command type, whatever
its success flag, so a server-side failure is reported inside the resolved
value and never as a rejection.  While waiting for turn_end, however, a
matching Response frame overwrites the captured response, so the call
resolves at the event with the most recently received matching response,
not necessarily the first one.  Every rejection originates in a socket
error, the timeout, or a subscribed turn_end event frame arriving while no
response was captured. -/
theorem rpc_client_capture_and_reject_reasons (cmdType : String)
    (w : Option String) (j : Json) (pre items rest : List ClientIncoming)
    (resp : Option Json) :
    ((∀ x ∈ pre, benignForResponse cmdType x = true) →
      isMatchingResponse cmdType j = true →
      sendRpcCommand cmdType none (pre ++ ClientIncoming.frame j :: rest) =
        RpcOutcome.resolved j none) ∧
    (∀ wname, isMatchingResponse cmdType j = true →
      runClientAux cmdType (some wname) resp (ClientIncoming.frame j :: rest) =
        runClientAux cmdType (some wname) (some j) rest) ∧
    (∀ r, resp = some r → j.getStr "type" = some "event" →
      j.getStr "event" = some "turn_end" →
      runClientAux cmdType (some "turn_end") resp (ClientIncoming.frame j :: rest) =
        RpcOutcome.resolved r (some (eventPayload j))) ∧
    (∀ reason, sendRpcCommand cmdType w items = RpcOutcome.rejected reason →
      rejectedOrigin w items reason) := by
  refine ⟨?_, ?_, ?_, ?_⟩
  · intro hpre hm
    simp only [isMatchingResponse, Bool.and_eq_true, beq_iff_eq] at hm
    rw [sendRpcCommand, runClientAux_skip cmdType pre _ hpre]
    simp [runClientAux, hm.1, hm.2]
  · intro wname hm
    simp only [isMatchingResponse, Bool.and_eq_true, beq_iff_eq] at hm
    simp [runClientAux, hm.1, hm.2]
  · intro r hresp hte hev
    subst hresp
    have hne : ¬ j.getStr "type" = some "response" := by
      rw [hte]
      simp
    simp [runClientAux, hne, hte, hev]
  · intro reason h
    exact runClientAux_rejected_origin cmdType w items none reason h

/-- Witness for C9: a Response with success false, after a benign
non-matching line, still resolves the call. -/
theorem rpc_client_capture_and_reject_reasons_witness :
    sendRpcCommand "abort" none
      [ClientIncoming.frame Json.null,
       ClientIncoming.frame (Json.obj [("type", Json.str "response"),
         ("command", Json.str "abort"), ("success", Json.bool false),
         ("error", Json.str "boom")])] =
      RpcOutcome.resolved (Json.obj [("type", Json.str "response"),
        ("command", Json.str "abort"), ("success", Json.bool false),
        ("error", Json.str "boom")]) none :=
  (rpc_client_capture_and_reject_reasons "abort" none
    (Json.obj [("type", Json.str "response"), ("command", Json.str "abort"),
      ("success", Json.bool false), ("error", Json.str "boom")])
    [ClientIncoming.frame Json.null] [] [] none).1 (by decide) (by decide)

/-- C9 counterexample: while waiting for turn_end, two matching Response
frames arrive before the event; the call resolves with the second one, not
the first (the id fields distinguish them), refuting first-match resolution
during an event wait. -/
theorem rpc_client_overwrite_counterexample :
    sendRpcCommand "abort" (some "turn_end")
      [ClientIncoming.frame (Json.obj [("type", Json.str "response"),
         ("command", Json.str "abort"), ("success", Json.bool true),
         ("id", Json.str "1")]),
       ClientIncoming.frame (Json.obj [("type", Json.str "response"),
         ("command", Json.str "abort"), ("success", Json.bool true),
         ("id", Json.str "2")]),
       ClientIncoming.frame (Json.obj [("type", Json.str "event"),
         ("event", Json.str "turn_end")])] =
      RpcOutcome.resolved (Json.obj [("type", Json.str "response"),
        ("command", Json.str "abort"), ("success", Json.bool true),
        ("id", Json.str "2")]) (some (Json.obj [])) ∧
    isMatchingResponse "abort" (Json.obj [("type", Json.str "response"),
      ("command", Json.str "abort"), ("success", Json.bool true),
      ("id", Json.str "1")]) = true ∧
    (Json.obj [("type", Json.str "response"), ("command", Json.str "abort"),
      ("success", Json.bool true), ("id", Json.str "1")]).getStr "id" = some "1" ∧
    (Json.obj [("type", Json.str "response"), ("command", Json.str "abort"),
      ("success", Json.bool true), ("id", Json.str "2")]).getStr "id" = some "2" := by
  refine ⟨?_, by decide, rfl, rfl⟩
  rfl

end AgentStuff
